import Mathlib

/-!
Verification development for the world-object store and spatial query engine
(`src/game/object.rs` of falltergeist/vault13).

The Rust source is shallowly embedded: pure functions become Lean functions,
the mutable `Objects` container becomes explicit state passing over a Lean
structure, machine integers become `Nat`/`Int` (with explicit wrapping where
overflow would matter — none of the embedded operations can overflow), and
fallible operations return `Option`/`Except`.  Collaborator modules that are
not part of the single source file (the hex tile-grid geometry, the prototype
database, the frame database, the grid pathfinder) are modelled as function
parameters carried inside the container, following the contracts stated in
the specification's §6.
-/

namespace Vault13

/-- 2-D pixel / tile point (`graphics::Point`, fields `x y : i32`). -/
structure Point where
  x : Int
  y : Int
deriving DecidableEq, Repr

instance : Add Point := ⟨fun a b => ⟨a.x + b.x, a.y + b.y⟩⟩

/-- Position with elevation (`graphics::EPoint`). -/
structure EPoint where
  elevation : Nat
  point : Point
deriving DecidableEq, Repr

/-- The six hex directions, in the source's clockwise discriminant order
`NE = 0, E, SE, SW, W, NW` (the `hex::Direction` enum lives outside the
embedded file; the order is fixed by the `dir >= Direction::E && dir <=
Direction::SW` range tests in `light_test`). -/
inductive Direction where
  | NE | E | SE | SW | W | NW
deriving DecidableEq, Repr

/-- All six directions, in discriminant order (`Direction::iter()`). -/
def Direction.all : List Direction := [.NE, .E, .SE, .SW, .W, .NW]

/-- Discriminant of a direction, for the source's ordered range tests. -/
def Direction.idx : Direction → Nat
  | .NE => 0 | .E => 1 | .SE => 2 | .SW => 3 | .W => 4 | .NW => 5

/-- Entity kinds, as encoded in the high bits of a `FrameId`
(`asset::EntityKind`); only the variants the embedded code inspects are
distinguished, the rest are `misc`. -/
inductive EntityKind where
  | item | critter | scenery | wall | interface | misc
deriving DecidableEq, Repr

/-- Frame/animation reference (`asset::frame::FrameId`).  The embedded code
only ever extracts the entity kind and uses the id as a database key. -/
structure FrameId where
  kind : EntityKind
  id : Nat
deriving DecidableEq, Repr

/-- The object flags the embedded code reads (`asset::Flag` bitset,
restricted to the flags the claims exercise). -/
structure Flags where
  turnedOff : Bool
  noBlock : Bool
  lightThru : Bool
  shootThru : Bool
  multiHex : Bool
  flat : Bool
deriving DecidableEq, Repr

/-- Prototype extended flags used for wall corner/edge classification
(`asset::FlagExt`, restricted to the wall-classification bits). -/
structure FlagExt where
  wallEastOrWest : Bool
  wallEastCorner : Bool
  wallWestCorner : Bool
  wallNorthCorner : Bool
  wallSouthCorner : Bool
deriving DecidableEq, Repr

/-- Modelled from the spec: `asset::proto::ProtoId` is outside the embedded
file.  Per §6 it is a prototype-database reference that packs to a 32-bit
wire value; we carry that packed value.  Which packed values are valid is
decided by the prototype database and is passed as an explicit `valid`
predicate to `from_packed`/`read` below. -/
structure ProtoId where
  packed : Nat
deriving DecidableEq, Repr

/-- Modelled from the spec: `ProtoId::pack` returns the 32-bit wire value. -/
def ProtoId.pack (p : ProtoId) : Nat := p.packed

/-- Modelled from the spec: `ProtoId::from_packed` succeeds exactly on valid
prototype ids ("all other values must decode as a valid prototype id or the
read fails"). -/
def ProtoId.from_packed (valid : Nat → Bool) (v : Nat) : Option ProtoId :=
  if valid v then some ⟨v⟩ else none

/-- `ObjectProtoId`: `None`, the `Dude` sentinel, or a prototype reference. -/
inductive ObjectProtoId where
  | none
  | dude
  | protoId (p : ProtoId)
deriving DecidableEq, Repr

/-- `ObjectProtoId::proto_id`. -/
def ObjectProtoId.proto_id : ObjectProtoId → Option ProtoId
  | .protoId v => some v
  | _ => Option.none

/-- `ObjectProtoId::from_packed`: the two reserved sentinel bit patterns,
otherwise delegating to `ProtoId::from_packed`. -/
def ObjectProtoId.from_packed (valid : Nat → Bool) (v : Nat) : Option ObjectProtoId :=
  if v = 0xffffffff then some .none
  else if v = 0x01000000 then some .dude
  else (ProtoId.from_packed valid v).map .protoId

/-- `ObjectProtoId::pack`. -/
def ObjectProtoId.pack : ObjectProtoId → Nat
  | .none => 0xffffffff
  | .dude => 0x01000000
  | .protoId v => v.pack

/-- Errors of `ObjectProtoId::read`: truncated input, or `InvalidData`
carrying the offending raw value (the source formats it into the message). -/
inductive ReadError where
  | eof
  | invalidData (v : Nat)
deriving DecidableEq, Repr

/-- Big-endian `u32` read from a byte stream (`read_u32::<BE>`). -/
def readU32BE : List Nat → Option (Nat × List Nat)
  | b0 :: b1 :: b2 :: b3 :: rest => some (((b0 * 256 + b1) * 256 + b2) * 256 + b3, rest)
  | _ => Option.none

/-- `ObjectProtoId::read`: read a big-endian `u32`, then `from_packed`,
failing with a malformed-data error naming the offending value. -/
def ObjectProtoId.read (valid : Nat → Bool) (bytes : List Nat) :
    Except ReadError (ObjectProtoId × List Nat) :=
  match readU32BE bytes with
  | Option.none => .error .eof
  | some (v, rest) =>
    match ObjectProtoId.from_packed valid v with
    | some pid => .ok (pid, rest)
    | Option.none => .error (.invalidData v)

/-- `LightEmitter`. -/
structure LightEmitter where
  intensity : Nat
  radius : Nat
deriving DecidableEq, Repr

/-- `Outline` (style encoded as a number; the embedded code never inspects it). -/
structure Outline where
  style : Nat
  translucent : Bool
  disabled : Bool
deriving DecidableEq, Repr

/-- Critter sub-state (`Critter`); the combat damage flags are a bitset. -/
structure Critter where
  health : Int
  radiation : Int
  poison : Int
  damageFlags : Nat
deriving DecidableEq, Repr

/-- `SubObject`: polymorphic sub-state. -/
inductive SubObject where
  | none
  | critter (c : Critter)
deriving DecidableEq, Repr

/-- Stable object identifier (`Handle`).  The embedded operation set never
frees handles (there is no public removal in the source file), so the slotmap
key degenerates to a fresh counter. -/
abbrev Handle := Nat

/-- The mutable per-instance entity (`Object`).  `sequence` and `script`
carry opaque identifiers; the embedded code never looks inside them. -/
structure Object where
  flags : Flags
  pos : Option EPoint
  screenPos : Point
  screenShift : Point
  fid : FrameId
  frameIdx : Nat
  direction : Direction
  lightEmitter : LightEmitter
  pid : ObjectProtoId
  inventory : List (Handle × Nat)
  outline : Option Outline
  sequence : Option Nat
  script : Option (Nat × Nat)
  sub : SubObject
deriving DecidableEq, Repr

instance : Inhabited Object :=
  ⟨{ flags := ⟨false, false, false, false, false, false⟩
     pos := Option.none
     screenPos := ⟨0, 0⟩
     screenShift := ⟨0, 0⟩
     fid := ⟨.misc, 0⟩
     frameIdx := 0
     direction := .NE
     lightEmitter := ⟨0, 0⟩
     pid := .none
     inventory := []
     outline := Option.none
     sequence := Option.none
     script := Option.none
     sub := .none }⟩

/-- `Object::kind`: the entity kind encoded in the frame id. -/
def Object.kind (o : Object) : EntityKind := o.fid.kind

/-- `Object::distance`: hex distance between the two positions, reduced by
one per multi-hex endpoint while the running value is positive; `none` when
either object is detached.  `hexDist` is the `hex::distance` collaborator. -/
def Object.distance (hexDist : Point → Point → Nat) (o1 o2 : Object) : Option Nat :=
  match o1.pos, o2.pos with
  | some p1, some p2 =>
    let r0 := hexDist p1.point p2.point
    let r1 := if 0 < r0 ∧ o1.flags.multiHex then r0 - 1 else r0
    let r2 := if 0 < r1 ∧ o2.flags.multiHex then r1 - 1 else r1
    some r2
  | _, _ => Option.none

/-- Tile state returned by the pathfinder's per-tile callback
(`path_finder::TileState`). -/
inductive TileState where
  | blocked
  | passable (cost : Nat)
deriving DecidableEq, Repr

/-- Spatial failure reasons of `can_talk` (`CantTalkSpatial`). -/
inductive CantTalkSpatial where
  | unreachable
  | tooFar
deriving DecidableEq, Repr

/-- Input of `light_test` (`LightTest`): the tile being tested, the incoming
direction and the sub-index `i` within the direction. -/
structure LightTest where
  point : EPoint
  direction : Direction
  i : Nat
deriving DecidableEq, Repr

/-- Result of `light_test` (`LightTestResult`). -/
structure LightTestResult where
  block : Bool
  update : Bool
deriving DecidableEq, Repr

/-- The object container (`Objects`).  The spatial index `byPos` and the
entity storage `objects` are total functions (the source's `Array2d` grid and
slotmap; positions are assumed in-bounds, out-of-bounds access panics in the
source).  The first six fields model read-only collaborators that live
outside the embedded file:
* `frmShift` — frame database: the current frame's intrinsic pixel shift for
  a frame id, direction and frame index (`frm_db.get(fid) .. frames[idx].shift`);
* `flagsExt` — prototype database: extended wall-classification flags for a
  prototype id (`proto_db.proto(pid).unwrap().flags_ext`; per the collaborator
  contract the database holds every reachable `ProtoId`, so the lookup is
  total — but `obj.pid.proto_id().unwrap()` at the call site still panics on
  objects whose pid is `None`/`Dude`, which the model keeps explicit);
* `go` — hex stepping `tile_grid.go(p, dir, 1)`;
* `ray` — hex ray traversal `hex::ray`;
* `hexDist` — hex distance `hex::distance`;
* `find` — the reusable grid pathfinder `PathFinder::find`. -/
structure Objects where
  frmShift : FrameId → Direction → Nat → Point
  flagsExt : ProtoId → FlagExt
  go : Point → Direction → Option Point
  ray : Point → Point → List Point
  hexDist : Point → Point → Nat
  find : Point → Point → Bool → (Point → TileState) → Option (List Direction)
  nextHandle : Nat
  objects : Handle → Option Object
  byPos : EPoint → List Handle
  detached : List Handle

/-- `Objects::get` followed by borrowing: entity lookup.  Looking up a handle
that was never issued panics in the source; the model returns the default
object and every theorem that needs the entity assumes liveness. -/
def Objects.getObj (s : Objects) (h : Handle) : Object := (s.objects h).getD default

/-- `Objects::contains`. -/
def Objects.containsH (s : Objects) (h : Handle) : Bool := (s.objects h).isSome

/-- `Objects::at`: the ordered tile list at a position. -/
def Objects.atPos (s : Objects) (pos : EPoint) : List Handle := s.byPos pos

/-- Point-update of the entity storage at one handle (a scoped
`borrow_mut` in the source). -/
def Objects.updObj (s : Objects) (h : Handle) (f : Object → Object) : Objects :=
  { s with objects := fun k => if k = h then (s.objects k).map f else s.objects k }

/-- Point-update of the tile list at one position (`Objects::at_mut`). -/
def Objects.updAt (s : Objects) (p : EPoint) (l : List Handle) : Objects :=
  { s with byPos := fun q => if q = p then l else s.byPos q }

/-- Rust's `i32::cmp`. -/
def cmpInt (a b : Int) : Ordering :=
  if a < b then .lt else if b < a then .gt else .eq

/-- `Objects::cmp_objs`: the draw-order comparator.  Flat objects first;
among equal flatness by vertical shift (screen shift plus the current
frame's intrinsic shift), ascending; ties by horizontal shift, ascending.
The source asserts that both objects sit on the same elevation — a caller
precondition that does not influence the returned ordering. -/
def Objects.cmp_objs (s : Objects) (o1 o2 : Object) : Ordering :=
  let flat := o1.flags.flat
  let otherFlat := o2.flags.flat
  if flat ≠ otherFlat then
    if flat then .lt else .gt
  else
    let shift := o1.screenShift + s.frmShift o1.fid o1.direction o1.frameIdx
    let otherShift := o2.screenShift + s.frmShift o2.fid o2.direction o2.frameIdx
    if shift.y < otherShift.y then .lt
    else if otherShift.y < shift.y then .gt
    else cmpInt shift.x otherShift.x

/-- Draw-order comparison between two stored handles. -/
def Objects.cmpH (s : Objects) (h1 h2 : Handle) : Ordering :=
  s.cmp_objs (s.getObj h1) (s.getObj h2)

/-- The sorted-insertion step of `Objects::insert_into_tile_grid`.  The
source computes the insertion index with `binary_search_by` over the
comparator and then scans forward past the run of elements comparing equal,
appending after them; on a list sorted by the comparator (which the
container's invariant guarantees, see `reachable_tile_lists_partition_sorted`)
that index is exactly the first position whose element compares `Greater`
with the new object — which this recursion locates directly. -/
def tileInsertList (s : Objects) (obj : Object) (h : Handle) : List Handle → List Handle
  | [] => [h]
  | h2 :: t =>
    if s.cmp_objs (s.getObj h2) obj = .gt then h :: h2 :: t
    else h2 :: tileInsertList s obj h t

/-- `Objects::insert_into_tile_grid`: for a concrete position, store the
position (resetting the screen shift when asked), then sorted-insert the
handle into the tile list; for `none`, append to the detached list. -/
def Objects.insert_into_tile_grid (s : Objects) (h : Handle) (pos : Option EPoint)
    (resetScreenShift : Bool) : Objects :=
  match pos with
  | some p =>
    let s1 := s.updObj h (fun o =>
      { o with pos := some p
               screenShift := if resetScreenShift then ⟨0, 0⟩ else o.screenShift })
    s1.updAt p (tileInsertList s1 (s1.getObj h) h (s1.byPos p))
  | Option.none => { s with detached := s.detached ++ [h] }

/-- `Objects::remove_from_tile_grid`: take the object's position (leaving
`none`), then delete the handle by value from the tile list it was in, or
from the detached list. -/
def Objects.remove_from_tile_grid (s : Objects) (h : Handle) : Objects × Option EPoint :=
  let oldPos := (s.getObj h).pos
  let s1 := s.updObj h (fun o => { o with pos := Option.none })
  match oldPos with
  | some p => (s1.updAt p ((s1.byPos p).filter (fun hh => hh ≠ h)), some p)
  | Option.none => ({ s1 with detached := s1.detached.filter (fun hh => hh ≠ h) }, Option.none)

/-- `Objects::insert`: allocate a fresh handle, store the entity, index it. -/
def Objects.insertObj (s : Objects) (obj : Object) : Objects × Handle :=
  let pos := obj.pos
  let h := s.nextHandle
  let s1 : Objects :=
    { s with nextHandle := h + 1
             objects := fun k => if k = h then some obj else s.objects k }
  (s1.insert_into_tile_grid h pos true, h)

/-- `Objects::set_pos`. -/
def Objects.set_pos (s : Objects) (h : Handle) (pos : EPoint) : Objects :=
  ((s.remove_from_tile_grid h).1).insert_into_tile_grid h (some pos) true

/-- `Objects::set_screen_shift`. -/
def Objects.set_screen_shift (s : Objects) (h : Handle) (shift : Point) : Objects :=
  let r := s.remove_from_tile_grid h
  let s2 := r.1.updObj h (fun o => { o with screenShift := shift })
  s2.insert_into_tile_grid h r.2 false

/-- `Objects::add_screen_shift`; also returns the new accumulated shift. -/
def Objects.add_screen_shift (s : Objects) (h : Handle) (shift : Point) : Objects × Point :=
  let r := s.remove_from_tile_grid h
  let s2 := r.1.updObj h (fun o => { o with screenShift := o.screenShift + shift })
  (s2.insert_into_tile_grid h r.2 false, (s2.getObj h).screenShift)

/-- `Objects::reset_screen_shift`. -/
def Objects.reset_screen_shift (s : Objects) (h : Handle) : Objects :=
  let r := s.remove_from_tile_grid h
  r.1.insert_into_tile_grid h r.2 true

/-- `Objects::distance`. -/
def Objects.distance (s : Objects) (a b : Handle) : Option Nat :=
  Object.distance s.hexDist (s.getObj a) (s.getObj b)

/-- The `check` closure of `Objects::is_blocked_at`: a handle other than the
querying object whose kind is critter, scenery or wall and which is neither
turned off nor flagged no-block. -/
def Objects.blockCheck (s : Objects) (obj h : Handle) : Bool :=
  if h = obj then false
  else
    let o := s.getObj h
    match o.kind with
    | .critter | .scenery | .wall => !(o.flags.turnedOff || o.flags.noBlock)
    | _ => false

/-- `Objects::is_blocked_at`: some object at the tile passes `check`, or a
multi-hex flagged object at one of the six adjacent tiles (same elevation)
passes `check`. -/
def Objects.is_blocked_at (s : Objects) (obj : Handle) (pos : EPoint) : Bool :=
  (s.atPos pos).any (fun h => s.blockCheck obj h) ||
  Direction.all.any (fun dir =>
    match s.go pos.point dir with
    | some near =>
      (s.atPos ⟨pos.elevation, near⟩).any (fun h =>
        (s.getObj h).flags.multiHex && s.blockCheck obj h)
    | Option.none => false)

/-- `Objects::is_sight_blocked_at`: some scenery or wall at the tile, other
than the querying object, not turned off and not light-through. -/
def Objects.is_sight_blocked_at (s : Objects) (obj : Handle) (pos : EPoint) : Bool :=
  (s.atPos pos).any (fun h =>
    let o := s.getObj h
    !o.flags.turnedOff && !o.flags.lightThru &&
      (o.kind == EntityKind.scenery || o.kind == EntityKind.wall) && h != obj)

/-- The `check` closure of `Objects::shot_blocker_at` over one tile list.
In multi-hex-only mode (the neighbor-tile fallback) the source's
`return None` aborts the scan of the whole list at the first object that is
not flagged multi-hex, rather than skipping it. -/
def Objects.shotCheckList (s : Objects) (obj : Handle) (multiHexOnly : Bool) :
    List Handle → Option Handle
  | [] => Option.none
  | h :: t =>
    let o := s.getObj h
    if multiHexOnly && !o.flags.multiHex then Option.none
    else
      let nonShootThru := if multiHexOnly then false else !o.flags.shootThru
      if !o.flags.turnedOff && (!o.flags.noBlock || nonShootThru) && h != obj &&
          (o.kind == EntityKind.scenery || o.kind == EntityKind.wall ||
            o.kind == EntityKind.critter) then
        some h
      else
        s.shotCheckList obj multiHexOnly t

/-- `Objects::shot_blocker_at`: first blocker in the tile's own list, else
the multi-hex-only scan of the six neighbor tiles in direction order. -/
def Objects.shot_blocker_at (s : Objects) (obj : Handle) (pos : EPoint) : Option Handle :=
  match s.shotCheckList obj false (s.atPos pos) with
  | some h => some h
  | Option.none =>
    Direction.all.findSome? (fun dir =>
      match s.go pos.point dir with
      | some p => s.shotCheckList obj true (s.atPos ⟨pos.elevation, p⟩)
      | Option.none => Option.none)

/-- The ray-walking loop of `Objects::is_shot_blocked`: at each ray point
find the shot blocker; when it differs from the last remembered blocker and
is neither shooter nor target and not a critter, the shot is blocked; a
newly seen blocker is remembered even when it is the shooter, the target or
a critter; the walk stops after processing the target's tile. -/
def Objects.shotWalk (s : Objects) (shooter target : Handle) (elev : Nat)
    (targetPt : Point) (lastBlocker : Option Handle) : List Point → Bool
  | [] => false
  | p :: rest =>
    let blocker := s.shot_blocker_at shooter ⟨elev, p⟩
    let newNonCritter : Bool :=
      blocker != lastBlocker &&
        (match blocker with
         | some b =>
           b != shooter && b != target && !((s.getObj b).kind == EntityKind.critter)
         | Option.none => false)
    if newNonCritter then true
    else
      let last2 := if blocker != lastBlocker && blocker.isSome then blocker else lastBlocker
      if p == targetPt then false
      else s.shotWalk shooter target elev targetPt last2 rest

/-- `Objects::is_shot_blocked`.  The source unwraps both positions and
asserts equal elevations; `none` models those panics. -/
def Objects.is_shot_blocked (s : Objects) (shooter target : Handle) : Option Bool :=
  match (s.getObj shooter).pos, (s.getObj target).pos with
  | some pos, some targetPos =>
    if pos.elevation = targetPos.elevation then
      some (s.shotWalk shooter target pos.elevation targetPos.point Option.none
        (s.ray pos.point targetPos.point))
    else Option.none
  | _, _ => Option.none

/-- `Objects::can_talk`: `Unreachable` on differing elevations, `TooFar`
beyond hex distance 12, otherwise the pathfinder with a sight-blocking
passability callback decides.  The source unwraps both positions; `none`
models that panic. -/
def Objects.can_talk (s : Objects) (obj1 obj2 : Handle) :
    Option (Except CantTalkSpatial Unit) :=
  match (s.getObj obj1).pos, (s.getObj obj2).pos with
  | some p1, some p2 =>
    some (
      if p1.elevation ≠ p2.elevation then .error .unreachable
      else if 12 < s.hexDist p1.point p2.point then .error .tooFar
      else
        let reachable := (s.find p1.point p2.point true (fun p =>
          if s.is_sight_blocked_at obj1 ⟨p1.elevation, p⟩ then .blocked
          else .passable 0)).isSome
        if reachable then .ok () else .error .unreachable)
  | _, _ => Option.none

/-- One wall-geometry / attenuation step of `Objects::light_test`: the new
value of the `update` accumulator after processing one non-turned-off
object.  `update` may only be cleared, never set back.  For a non-flat wall
the source runs `obj.pid.proto_id().unwrap()` before consulting the
prototype database; when the object's pid is `None` or `Dude` that unwrap
panics, modelled as `Option.none`. -/
def Objects.lightUpdateStep (s : Objects) (input : LightTest) (o : Object)
    (update : Bool) : Option Bool :=
  let dir := input.direction
  let block := !o.flags.lightThru
  if o.fid.kind == EntityKind.wall then
    if !o.flags.flat then
      match o.pid.proto_id with
      | Option.none => Option.none
      | some pid => some <|
      let fe := s.flagsExt pid
      if fe.wallEastOrWest || fe.wallEastCorner then
        if dir != Direction.W && dir != Direction.NW &&
            (dir != Direction.NE || decide (8 ≤ input.i)) &&
            (dir != Direction.SW || decide (input.i ≤ 15)) then false
        else update
      else if fe.wallNorthCorner then
        if dir != Direction.NE && dir != Direction.NW then false else update
      else if fe.wallSouthCorner then
        if dir != Direction.NE && dir != Direction.E && dir != Direction.W &&
            dir != Direction.NW && (dir != Direction.SW || decide (input.i ≤ 15)) then false
        else update
      else if dir != Direction.NE && dir != Direction.E &&
          (dir != Direction.NW || decide (input.i ≤ 7)) then false
      else update
    else some update
  else if block &&
      -- `dir >= Direction::E && dir <= Direction::SW` in discriminant order
      (dir == Direction.E || dir == Direction.SE || dir == Direction.SW) then
    some false
  else some update

/-- The object-list loop of `Objects::light_test`: skip turned-off objects,
update the accumulator, and return immediately with `block := true` at the
first non-light-through object.  `Option.none` propagates the
`proto_id().unwrap()` panic of `lightUpdateStep`. -/
def Objects.lightTestLoop (s : Objects) (input : LightTest) (update : Bool) :
    List Handle → Option LightTestResult
  | [] => some ⟨false, update⟩
  | h :: t =>
    let o := s.getObj h
    if o.flags.turnedOff then s.lightTestLoop input update t
    else
      let block := !o.flags.lightThru
      match s.lightUpdateStep input o update with
      | Option.none => Option.none
      | some update2 =>
        if block then some ⟨true, update2⟩
        else s.lightTestLoop input update2 t

/-- `Objects::light_test` (`Option.none` is the `proto_id().unwrap()` panic on
a non-flat wall without a prototype reference). -/
def Objects.light_test (s : Objects) (input : LightTest) : Option LightTestResult :=
  s.lightTestLoop input true (s.atPos input.point)

/-! ### The draw-order comparator as a lexicographic key comparison -/

/-- The draw-order sort key of an object: flatness rank (flat first), then
total vertical shift, then total horizontal shift. -/
def Objects.keyOf (s : Objects) (o : Object) : Nat × Int × Int :=
  ( if o.flags.flat then 0 else 1
  , (o.screenShift + s.frmShift o.fid o.direction o.frameIdx).y
  , (o.screenShift + s.frmShift o.fid o.direction o.frameIdx).x )

/-- Lexicographic comparison of draw-order sort keys. -/
def cmpKey (k1 k2 : Nat × Int × Int) : Ordering :=
  if k1.1 < k2.1 then .lt else if k2.1 < k1.1 then .gt
  else if k1.2.1 < k2.2.1 then .lt else if k2.2.1 < k1.2.1 then .gt
  else cmpInt k1.2.2 k2.2.2

/-- The non-strict key order, spelled out. -/
def leK (k1 k2 : Nat × Int × Int) : Prop :=
  k1.1 < k2.1 ∨ (k1.1 = k2.1 ∧
    (k1.2.1 < k2.2.1 ∨ (k1.2.1 = k2.2.1 ∧ k1.2.2 ≤ k2.2.2)))

instance (k1 k2 : Nat × Int × Int) : Decidable (leK k1 k2) := by
  unfold leK; infer_instance

/-- Handle-level draw order: "not greater" under `cmp_objs`. -/
def LeH (s : Objects) (h1 h2 : Handle) : Prop := s.cmpH h1 h2 ≠ .gt

/-! ### The container invariant -/

/-- Well-formed container state: handles above the allocation counter are
dead; a handle sits in the tile list of a position iff its object carries
that position, and in the detached list iff its object carries no position;
every list is duplicate-free; every tile list is sorted by the draw-order
comparator. -/
structure WF (s : Objects) : Prop where
  fresh : ∀ k, s.nextHandle ≤ k → s.objects k = Option.none
  mem_pos : ∀ k p, k ∈ s.byPos p ↔ ∃ o, s.objects k = some o ∧ o.pos = some p
  mem_det : ∀ k, k ∈ s.detached ↔ ∃ o, s.objects k = some o ∧ o.pos = Option.none
  nodup_pos : ∀ p, (s.byPos p).Nodup
  nodup_det : s.detached.Nodup
  sorted : ∀ p, (s.byPos p).Pairwise (LeH s)

/-- Mid-mutation state: well-formed except that the live handle `h` is
indexed nowhere (between `remove_from_tile_grid` and
`insert_into_tile_grid`, or right after allocating a fresh handle). -/
structure WFx (s : Objects) (h : Handle) : Prop where
  fresh : ∀ k, s.nextHandle ≤ k → s.objects k = Option.none
  live : (s.objects h).isSome
  mem_pos : ∀ k p, k ∈ s.byPos p ↔ k ≠ h ∧ ∃ o, s.objects k = some o ∧ o.pos = some p
  mem_det : ∀ k, k ∈ s.detached ↔ k ≠ h ∧ ∃ o, s.objects k = some o ∧ o.pos = Option.none
  nodup_pos : ∀ p, (s.byPos p).Nodup
  nodup_det : s.detached.Nodup
  sorted : ∀ p, (s.byPos p).Pairwise (LeH s)

/-- States reachable from a fresh container (`Objects::new`) by the indexed
mutations.  The mutating operations require a live handle — looking up a
dead handle panics in the source. -/
inductive Reachable : Objects → Prop where
  | init (frmShift : FrameId → Direction → Nat → Point)
      (flagsExt : ProtoId → FlagExt)
      (go : Point → Direction → Option Point)
      (ray : Point → Point → List Point)
      (hexDist : Point → Point → Nat)
      (find : Point → Point → Bool → (Point → TileState) → Option (List Direction)) :
      Reachable
        { frmShift := frmShift, flagsExt := flagsExt, go := go, ray := ray
          hexDist := hexDist, find := find, nextHandle := 0
          objects := fun _ => Option.none, byPos := fun _ => [], detached := [] }
  | insertObj {s : Objects} (obj : Object) :
      Reachable s → Reachable (s.insertObj obj).1
  | set_pos {s : Objects} (h : Handle) (p : EPoint) :
      Reachable s → s.containsH h → Reachable (s.set_pos h p)
  | set_screen_shift {s : Objects} (h : Handle) (v : Point) :
      Reachable s → s.containsH h → Reachable (s.set_screen_shift h v)
  | add_screen_shift {s : Objects} (h : Handle) (v : Point) :
      Reachable s → s.containsH h → Reachable (s.add_screen_shift h v).1
  | reset_screen_shift {s : Objects} (h : Handle) :
      Reachable s → s.containsH h → Reachable (s.reset_screen_shift h)

/-- The handle-allocation step of `Objects::insert`: bump the counter and
store the entity under the old counter value. -/
def Objects.alloc (s : Objects) (obj : Object) : Objects :=
  { s with nextHandle := s.nextHandle + 1,
           objects := fun k => if k = s.nextHandle then some obj else s.objects k }

/-! ### Concrete fixtures for witnesses and scenarios -/

/-- Trivial collaborator functions and an empty container, as built by
`Objects::new`: every frame has zero intrinsic shift, no prototype flags,
no hex neighbors, trivial geometry, a pathfinder that never finds a path. -/
def demoState0 : Objects :=
  { frmShift := fun _ _ _ => ⟨0, 0⟩
    flagsExt := fun _ => ⟨false, false, false, false, false⟩
    go := fun _ _ => Option.none
    ray := fun _ _ => []
    hexDist := fun _ _ => 0
    find := fun _ _ _ _ => Option.none
    nextHandle := 0
    objects := fun _ => Option.none
    byPos := fun _ => []
    detached := [] }

/-- A plain scenery object placed at elevation 0, tile (1, 1). -/
def demoObjA : Object :=
  { (default : Object) with
      fid := ⟨.scenery, 0⟩
      pos := some ⟨0, ⟨1, 1⟩⟩ }

/-- The tile used by the draw-order insertion scenario. -/
def demoTile : EPoint := ⟨0, ⟨1, 1⟩⟩

/-- Scenario object A: flat scenery, zero shift, at `demoTile`. -/
def demoFlatA : Object :=
  { (default : Object) with
      fid := ⟨.scenery, 1⟩
      flags := ⟨false, false, false, false, false, true⟩
      pos := some demoTile }

/-- Scenario object B: non-flat scenery, zero shift, at `demoTile`. -/
def demoPlainB : Object :=
  { (default : Object) with
      fid := ⟨.scenery, 2⟩
      flags := ⟨false, false, false, false, false, false⟩
      pos := some demoTile }

/-- Big-endian encoding of a 32-bit value, inverse of `readU32BE`. -/
def encodeU32BE (v : Nat) : List Nat :=
  [v / 16777216 % 256, v / 65536 % 256, v / 256 % 256, v % 256]

/-- A multi-hex scenery object at elevation 0, tile (0, 0). -/
def demoMulti : Object :=
  { (default : Object) with
      fid := ⟨.scenery, 3⟩
      flags := ⟨false, false, false, false, true, false⟩
      pos := some ⟨0, ⟨0, 0⟩⟩ }

/-- A two-object state with a constant hex metric, for the distance witness. -/
def demoDistState : Objects :=
  { demoState0 with
      hexDist := fun _ _ => 5
      objects := fun k =>
        if k = 0 then some demoMulti
        else if k = 1 then some demoPlainB else Option.none }

/-- The tile-local blocking test of `shot_blocker_at` as a predicate:
scenery, wall or critter other than the querying object, not turned off,
and not both no-block and shoot-through. -/
def shotMainPred (s : Objects) (obj h : Handle) : Bool :=
  !(s.getObj h).flags.turnedOff &&
    (!(s.getObj h).flags.noBlock || !(s.getObj h).flags.shootThru) && h != obj &&
    ((s.getObj h).kind == EntityKind.scenery || (s.getObj h).kind == EntityKind.wall ||
      (s.getObj h).kind == EntityKind.critter)

/-- The multi-hex neighbor blocking test of `shot_blocker_at` as a
predicate: a multi-hex scenery, wall or critter other than the querying
object, not turned off and not no-block (shoot-through is ignored). -/
def shotMultiPred (s : Objects) (obj h : Handle) : Bool :=
  (s.getObj h).flags.multiHex && !(s.getObj h).flags.turnedOff &&
    !(s.getObj h).flags.noBlock && h != obj &&
    ((s.getObj h).kind == EntityKind.scenery || (s.getObj h).kind == EntityKind.wall ||
      (s.getObj h).kind == EntityKind.critter)

/-- `shot_blocker_at` as claim C5 words it: the first blocker in the tile's
own list, else the first multi-hex blocker found checking all six
neighboring tiles — i.e. scanning each neighbor list in full. -/
def specShotBlockerAt (s : Objects) (obj : Handle) (pos : EPoint) : Option Handle :=
  match (s.atPos pos).find? (shotMainPred s obj) with
  | some h => some h
  | Option.none =>
    Direction.all.findSome? (fun dir =>
      match s.go pos.point dir with
      | some p => (s.atPos ⟨pos.elevation, p⟩).find? (shotMultiPred s obj)
      | Option.none => Option.none)

/-- The tile queried in the C5 counterexample (its own list is empty). -/
def demoShotTile : EPoint := ⟨0, ⟨5, 5⟩⟩

/-- Its single modelled neighbor tile. -/
def demoShotNeighbor : EPoint := ⟨0, ⟨6, 5⟩⟩

/-- A plain (non-multi-hex) item in the neighbor tile. -/
def demoItemObj : Object :=
  { (default : Object) with
      fid := ⟨.item, 7⟩
      pos := some demoShotNeighbor }

/-- A multi-hex critter behind the item in the same neighbor tile list. -/
def demoMultiCritter : Object :=
  { (default : Object) with
      fid := ⟨.critter, 8⟩
      flags := ⟨false, false, false, false, true, false⟩
      pos := some demoShotNeighbor }

/-- State for the C5 counterexample: the queried tile is empty; its NE
neighbor holds a non-multi-hex item first, then a multi-hex critter. -/
def demoShotState : Objects :=
  { demoState0 with
      go := fun p dir =>
        if p = demoShotTile.point ∧ dir = Direction.NE then some demoShotNeighbor.point
        else Option.none
      objects := fun k =>
        if k = 5 then some demoItemObj
        else if k = 6 then some demoMultiCritter else Option.none
      byPos := fun q => if q = demoShotNeighbor then [5, 6] else [] }

/-- An unflagged critter placed at `demoTile`. -/
def demoCritter : Object :=
  { (default : Object) with
      fid := ⟨.critter, 4⟩
      pos := some demoTile }

/-- One-critter state for the blocking witness. -/
def demoBlockState : Objects :=
  { demoState0 with
      objects := fun k => if k = 0 then some demoCritter else Option.none
      byPos := fun q => if q = demoTile then [0] else [] }

/-- A light-through, non-flat wall at `demoTile` carrying a real prototype
reference whose extended flags are all clear (it never blocks, but its
generic wall geometry can still clear the update accumulator). -/
def demoLightWall : Object :=
  { (default : Object) with
      fid := ⟨.wall, 9⟩
      pid := .protoId ⟨42⟩
      flags := ⟨false, false, true, false, false, false⟩
      pos := some demoTile }

/-- State for the C8 counterexample: one light-through wall on the tile. -/
def demoLightState : Objects :=
  { demoState0 with
      objects := fun k => if k = 0 then some demoLightWall else Option.none
      byPos := fun q => if q = demoTile then [0] else [] }

/-- The light test of the C8 counterexample: incoming direction W. -/
def demoLightInput : LightTest := ⟨demoTile, Direction.W, 0⟩

/-- A critter at elevation 0, tile (0, 0), for the talk scenario. -/
def demoTalkA : Object :=
  { (default : Object) with
      fid := ⟨.critter, 10⟩
      pos := some ⟨0, ⟨0, 0⟩⟩ }

/-- A critter at elevation 0, tile (3, 3), for the talk scenario. -/
def demoTalkB : Object :=
  { (default : Object) with
      fid := ⟨.critter, 11⟩
      pos := some ⟨0, ⟨3, 3⟩⟩ }

/-- Two critters at hex distance 13; the pathfinder would even find a path,
but it must not be consulted. -/
def demoTalkFarState : Objects :=
  { demoState0 with
      hexDist := fun _ _ => 13
      find := fun _ _ _ _ => some []
      objects := fun k =>
        if k = 0 then some demoTalkA
        else if k = 1 then some demoTalkB else Option.none }

/-- Two critters at hex distance 10 with a pathfinder that finds a path. -/
def demoTalkNearState : Objects :=
  { demoState0 with
      hexDist := fun _ _ => 10
      find := fun _ _ _ _ => some []
      objects := fun k =>
        if k = 0 then some demoTalkA
        else if k = 1 then some demoTalkB else Option.none }

/-- A detached object carrying a non-zero screen shift. -/
def demoDetached : Object := { (default : Object) with screenShift := ⟨1, 2⟩ }

/-- A container holding only that detached object. -/
def demoDetachedState : Objects :=
  { demoState0 with
      nextHandle := 1
      objects := fun k => if k = 0 then some demoDetached else Option.none
      detached := [0] }

/-! ### The shot-ray walk as a sequence semantics -/

/-- The "new non-critter blocker" test of one `is_shot_blocked` step. -/
def shotNew (s : Objects) (shooter target : Handle)
    (lastBlocker blocker : Option Handle) : Bool :=
  blocker != lastBlocker &&
    (match blocker with
     | some b =>
       b != shooter && b != target && !((s.getObj b).kind == EntityKind.critter)
     | Option.none => false)

/-- The code's walk, abstracted over the per-step blocker sequence: the
remembered blocker is the last `some` seen. -/
def codeShotSeq (s : Objects) (shooter target : Handle) (acc : Option Handle) :
    List (Option Handle) → Bool
  | [] => false
  | b :: rest =>
    if shotNew s shooter target acc b then true
    else codeShotSeq s shooter target
      (if b != acc && b.isSome then b else acc) rest

/-- The claim's reading of the walk: "differs from the previous step's
blocker" — the comparison point is the immediately preceding step's
blocker, updated every step (also to `none`). -/
def specShotSeq (s : Objects) (shooter target : Handle) (prev : Option Handle) :
    List (Option Handle) → Bool
  | [] => false
  | b :: rest =>
    if shotNew s shooter target prev b then true
    else specShotSeq s shooter target b rest

/-- The prefix of a ray up to (and including) the first hit of the target
point — exactly the tiles the source loop processes before its `break`. -/
def upTo (tp : Point) : List Point → List Point
  | [] => []
  | p :: rest => if p = tp then [p] else p :: upTo tp rest

/-- The last `some` element of a blocker sequence, seeded with `acc`. -/
def lastSomeFrom (acc : Option Handle) (l : List (Option Handle)) : Option Handle :=
  l.foldl (fun a b => match b with | some x => some x | Option.none => a) acc

/-- The last element of a prefix of the blocker sequence, seeded with
`prev` (the claim's "previous step's blocker" before a given index). -/
def prevFrom (prev : Option Handle) (l : List (Option Handle)) : Option Handle :=
  l.getLast?.getD prev

/-- The property making a blocker end the walk: neither endpoint, and not
a critter. -/
def shotHitP (s : Objects) (shooter target x : Handle) : Prop :=
  x ≠ shooter ∧ x ≠ target ∧ (s.getObj x).kind ≠ .critter

instance (s : Objects) (shooter target x : Handle) :
    Decidable (shotHitP s shooter target x) := by
  unfold shotHitP; infer_instance

/-- Shooter critter of the 5-tile ray scenario, at elevation 0, tile (0, 0). -/
def demoRayShooter : Object :=
  { (default : Object) with
      fid := ⟨.critter, 12⟩
      pos := some ⟨0, ⟨0, 0⟩⟩ }

/-- Target critter of the scenario, at tile (4, 0). -/
def demoRayTarget : Object :=
  { (default : Object) with
      fid := ⟨.critter, 13⟩
      pos := some ⟨0, ⟨4, 0⟩⟩ }

/-- The intervening wall at tile (2, 0): not shoot-through, not no-block. -/
def demoRayWall : Object :=
  { (default : Object) with
      fid := ⟨.wall, 14⟩
      pos := some ⟨0, ⟨2, 0⟩⟩ }

/-- Scenario state: shooter — three tiles — target on a straight 5-tile
ray, with the wall on the middle tile. -/
def demoRayWallState : Objects :=
  { demoState0 with
      ray := fun a b =>
        if a = ⟨0, 0⟩ ∧ b = ⟨4, 0⟩ then
          [⟨0, 0⟩, ⟨1, 0⟩, ⟨2, 0⟩, ⟨3, 0⟩, ⟨4, 0⟩]
        else []
      objects := fun k =>
        if k = 0 then some demoRayShooter
        else if k = 1 then some demoRayTarget
        else if k = 2 then some demoRayWall else Option.none
      byPos := fun q =>
        if q = ⟨0, ⟨0, 0⟩⟩ then [0]
        else if q = ⟨0, ⟨4, 0⟩⟩ then [1]
        else if q = ⟨0, ⟨2, 0⟩⟩ then [2] else [] }

/-- The same scenario with the wall removed from the tile grid. -/
def demoRayClearState : Objects :=
  { demoRayWallState with
      byPos := fun q =>
        if q = ⟨0, ⟨0, 0⟩⟩ then [0]
        else if q = ⟨0, ⟨4, 0⟩⟩ then [1] else [] }

theorem Point.add_def (a b : Point) : a + b = ⟨a.x + b.x, a.y + b.y⟩ := rfl

/-- `cmp_objs` is exactly the lexicographic comparison of the sort keys. -/
theorem Objects.cmp_objs_eq_cmpKey (s : Objects) (o1 o2 : Object) :
    s.cmp_objs o1 o2 = cmpKey (s.keyOf o1) (s.keyOf o2) := by
  unfold Objects.cmp_objs Objects.keyOf cmpKey
  cases h1 : o1.flags.flat <;> cases h2 : o2.flags.flat <;> simp [h1, h2]

theorem cmpKey_ne_gt_iff (k1 k2 : Nat × Int × Int) :
    cmpKey k1 k2 ≠ .gt ↔ leK k1 k2 := by
  unfold cmpKey cmpInt leK
  split_ifs <;> simp_all <;> omega

theorem cmpKey_gt_iff (k1 k2 : Nat × Int × Int) :
    cmpKey k1 k2 = .gt ↔ ¬ leK k1 k2 := by
  rw [← cmpKey_ne_gt_iff]; tauto

theorem leK_trans {k1 k2 k3 : Nat × Int × Int} :
    leK k1 k2 → leK k2 k3 → leK k1 k3 := by
  unfold leK; omega

theorem leK_total {k1 k2 : Nat × Int × Int} : ¬ leK k1 k2 → leK k2 k1 := by
  unfold leK; omega

theorem LeH_iff (s : Objects) (h1 h2 : Handle) :
    LeH s h1 h2 ↔ leK (s.keyOf (s.getObj h1)) (s.keyOf (s.getObj h2)) := by
  unfold LeH Objects.cmpH
  rw [Objects.cmp_objs_eq_cmpKey, cmpKey_ne_gt_iff]

/-! ### Congruence helpers: the comparator only reads the frame database and
the two entities, so state updates that leave those alone leave the draw
order alone. -/

theorem Objects.cmp_objs_congr {s1 s2 : Objects} (hf : s1.frmShift = s2.frmShift)
    (o1 o2 : Object) : s1.cmp_objs o1 o2 = s2.cmp_objs o1 o2 := by
  unfold Objects.cmp_objs; rw [hf]

theorem LeH_congr {s1 s2 : Objects} {h1 h2 : Handle}
    (hf : s1.frmShift = s2.frmShift)
    (e1 : s1.objects h1 = s2.objects h1) (e2 : s1.objects h2 = s2.objects h2) :
    LeH s1 h1 h2 ↔ LeH s2 h1 h2 := by
  unfold LeH Objects.cmpH Objects.getObj
  rw [Objects.cmp_objs_congr hf, e1, e2]

theorem pairwise_LeH_congr {s1 s2 : Objects} {l : List Handle}
    (hf : s1.frmShift = s2.frmShift)
    (hobj : ∀ k ∈ l, s1.objects k = s2.objects k) :
    l.Pairwise (LeH s1) ↔ l.Pairwise (LeH s2) := by
  constructor
  · intro hp
    exact hp.imp_of_mem (fun ha hb hr => (LeH_congr hf (hobj _ ha) (hobj _ hb)).mp hr)
  · intro hp
    exact hp.imp_of_mem (fun ha hb hr => (LeH_congr hf (hobj _ ha) (hobj _ hb)).mpr hr)

/-! ### Sorted insertion -/

theorem mem_tileInsertList {s : Objects} {obj : Object} {h : Handle}
    {l : List Handle} {x : Handle} :
    x ∈ tileInsertList s obj h l ↔ x = h ∨ x ∈ l := by
  induction l with
  | nil => simp [tileInsertList]
  | cons h2 t ih =>
    unfold tileInsertList
    split
    · simp [or_comm, or_assoc, or_left_comm]
    · simp [ih]; tauto

theorem nodup_tileInsertList {s : Objects} {obj : Object} {h : Handle}
    {l : List Handle} (hn : l.Nodup) (hh : h ∉ l) :
    (tileInsertList s obj h l).Nodup := by
  induction l with
  | nil => simp [tileInsertList]
  | cons h2 t ih =>
    rcases List.nodup_cons.mp hn with ⟨h2t, ht⟩
    have hne : h ≠ h2 := fun e => hh (e ▸ List.mem_cons_self _ _)
    have hht : h ∉ t := fun e => hh (List.mem_cons_of_mem _ e)
    unfold tileInsertList
    split
    · exact List.nodup_cons.mpr ⟨by simp [hne, hht], hn⟩
    · refine List.nodup_cons.mpr ⟨?_, ih ht hht⟩
      rw [mem_tileInsertList]
      rintro (e | e)
      · exact hne.symm e
      · exact h2t e

theorem pairwise_tileInsertList {s : Objects} {obj : Object} {h : Handle}
    {l : List Handle} (hobj : s.getObj h = obj)
    (hsort : l.Pairwise (LeH s)) :
    (tileInsertList s obj h l).Pairwise (LeH s) := by
  induction l with
  | nil => simp [tileInsertList]
  | cons h2 t ih =>
    rcases List.pairwise_cons.mp hsort with ⟨hall, htsort⟩
    unfold tileInsertList
    split
    case isTrue hgt =>
      -- the new element goes right before `h2`
      have hlek : leK (s.keyOf obj) (s.keyOf (s.getObj h2)) := by
        refine leK_total (fun hle => ?_)
        rw [Objects.cmp_objs_eq_cmpKey, cmpKey_gt_iff] at hgt
        exact hgt hle
      refine List.pairwise_cons.mpr ⟨?_, hsort⟩
      intro y hy
      rcases List.mem_cons.mp hy with rfl | hyt
      · rw [LeH_iff, hobj]; exact hlek
      · rw [LeH_iff, hobj]
        exact leK_trans hlek ((LeH_iff s h2 y).mp (hall y hyt))
    case isFalse hng =>
      refine List.pairwise_cons.mpr ⟨?_, ih htsort⟩
      intro y hy
      rcases mem_tileInsertList.mp hy with rfl | hyt
      · unfold LeH Objects.cmpH
        rw [hobj]
        exact hng
      · exact hall y hyt

/-! ### Small update lemmas -/

theorem Objects.updObj_objects_self (s : Objects) (h : Handle) (f : Object → Object) :
    (s.updObj h f).objects h = (s.objects h).map f := by
  simp [Objects.updObj]

theorem Objects.updObj_objects_ne (s : Objects) (h : Handle) (f : Object → Object)
    {k : Handle} (hk : k ≠ h) : (s.updObj h f).objects k = s.objects k := by
  simp [Objects.updObj, hk]

theorem lt_next_of_live {s : Objects}
    (hfresh : ∀ k, s.nextHandle ≤ k → s.objects k = Option.none)
    {h : Handle} (hlive : (s.objects h).isSome) : h < s.nextHandle := by
  by_contra hc
  push_neg at hc
  rw [hfresh h hc] at hlive
  simp at hlive

/-- `remove_from_tile_grid` on an object placed at `p`. -/
theorem Objects.remove_eq_of_pos_some {s : Objects} {h : Handle} {o : Object} {p : EPoint}
    (ho : s.objects h = some o) (hp : o.pos = some p) :
    s.remove_from_tile_grid h =
      ((s.updObj h (fun oo => { oo with pos := Option.none })).updAt p
        ((s.byPos p).filter (fun hh => hh ≠ h)), some p) := by
  have hg : s.getObj h = o := by simp [Objects.getObj, ho]
  unfold Objects.remove_from_tile_grid
  rw [hg, hp]
  rfl

/-- `remove_from_tile_grid` on a detached object. -/
theorem Objects.remove_eq_of_pos_none {s : Objects} {h : Handle} {o : Object}
    (ho : s.objects h = some o) (hp : o.pos = Option.none) :
    s.remove_from_tile_grid h =
      ({ s.updObj h (fun oo => { oo with pos := Option.none }) with
          detached := s.detached.filter (fun hh => hh ≠ h) }, Option.none) := by
  have hg : s.getObj h = o := by simp [Objects.getObj, ho]
  unfold Objects.remove_from_tile_grid
  rw [hg, hp]
  rfl

@[simp] theorem Objects.updAt_objects (s : Objects) (p : EPoint) (l : List Handle) :
    (s.updAt p l).objects = s.objects := rfl

@[simp] theorem Objects.updAt_byPos (s : Objects) (p : EPoint) (l : List Handle) (q : EPoint) :
    (s.updAt p l).byPos q = if q = p then l else s.byPos q := rfl

@[simp] theorem Objects.updAt_detached (s : Objects) (p : EPoint) (l : List Handle) :
    (s.updAt p l).detached = s.detached := rfl

@[simp] theorem Objects.updAt_frmShift (s : Objects) (p : EPoint) (l : List Handle) :
    (s.updAt p l).frmShift = s.frmShift := rfl

@[simp] theorem Objects.updAt_nextHandle (s : Objects) (p : EPoint) (l : List Handle) :
    (s.updAt p l).nextHandle = s.nextHandle := rfl

@[simp] theorem Objects.updObj_byPos (s : Objects) (h : Handle) (f : Object → Object) :
    (s.updObj h f).byPos = s.byPos := rfl

@[simp] theorem Objects.updObj_detached (s : Objects) (h : Handle) (f : Object → Object) :
    (s.updObj h f).detached = s.detached := rfl

@[simp] theorem Objects.updObj_frmShift (s : Objects) (h : Handle) (f : Object → Object) :
    (s.updObj h f).frmShift = s.frmShift := rfl

@[simp] theorem Objects.updObj_nextHandle (s : Objects) (h : Handle) (f : Object → Object) :
    (s.updObj h f).nextHandle = s.nextHandle := rfl

/-- After removing a live object: the mid-mutation invariant holds, the
object's position has been taken, and the returned position is the old one. -/
theorem Objects.remove_spec {s : Objects} {h : Handle} {o : Object}
    (hW : WF s) (ho : s.objects h = some o) :
    WFx (s.remove_from_tile_grid h).1 h ∧
    (s.remove_from_tile_grid h).1.objects h = some { o with pos := Option.none } ∧
    (s.remove_from_tile_grid h).2 = o.pos := by
  have hlt : h < s.nextHandle := lt_next_of_live hW.fresh (by rw [ho]; rfl)
  have fobj : ∀ k, (s.updObj h (fun oo => { oo with pos := Option.none })).objects k =
      if k = h then some { o with pos := Option.none } else s.objects k := by
    intro k
    by_cases hk : k = h
    · subst hk; rw [Objects.updObj_objects_self, ho]; simp
    · rw [Objects.updObj_objects_ne _ _ _ hk, if_neg hk]
  cases hp : o.pos with
  | some p =>
    rw [Objects.remove_eq_of_pos_some ho hp]
    refine ⟨⟨?_, ?_, ?_, ?_, ?_, ?_, ?_⟩, ?_, rfl⟩
    · intro k hk
      have hk2 : s.nextHandle ≤ k := hk
      have hlt2 : h < s.nextHandle := hlt
      have hkh : k ≠ h := (Nat.lt_of_lt_of_le hlt2 hk2).ne'
      show (s.updObj h (fun oo => { oo with pos := Option.none })).objects k = Option.none
      rw [fobj, if_neg hkh]
      exact hW.fresh k hk2
    · show ((s.updObj h (fun oo => { oo with pos := Option.none })).objects h).isSome
      rw [fobj, if_pos rfl]; rfl
    · intro k q
      simp only [Objects.updAt_objects, Objects.updAt_byPos, Objects.updObj_byPos]
      by_cases hq : q = p
      · subst hq
        rw [if_pos rfl]
        constructor
        · intro hm
          rcases List.mem_filter.mp hm with ⟨hk, hkh⟩
          have hkh : k ≠ h := by simpa using hkh
          rcases (hW.mem_pos k q).mp hk with ⟨o2, ho2, hpo2⟩
          exact ⟨hkh, o2, by rw [fobj, if_neg hkh]; exact ho2, hpo2⟩
        · rintro ⟨hkh, o2, ho2, hpo2⟩
          rw [fobj, if_neg hkh] at ho2
          exact List.mem_filter.mpr ⟨(hW.mem_pos k q).mpr ⟨o2, ho2, hpo2⟩, by simpa using hkh⟩
      · rw [if_neg hq]
        constructor
        · intro hm
          rcases (hW.mem_pos k q).mp hm with ⟨o2, ho2, hpo2⟩
          have hkh : k ≠ h := by
            rintro rfl
            rw [ho] at ho2
            injection ho2 with e
            subst e
            rw [hp] at hpo2
            injection hpo2 with e2
            exact hq e2.symm
          exact ⟨hkh, o2, by rw [fobj, if_neg hkh]; exact ho2, hpo2⟩
        · rintro ⟨hkh, o2, ho2, hpo2⟩
          rw [fobj, if_neg hkh] at ho2
          exact (hW.mem_pos k q).mpr ⟨o2, ho2, hpo2⟩
    · intro k
      simp only [Objects.updAt_objects, Objects.updAt_detached, Objects.updObj_detached]
      constructor
      · intro hm
        rcases (hW.mem_det k).mp hm with ⟨o2, ho2, hpo2⟩
        have hkh : k ≠ h := by
          rintro rfl
          rw [ho] at ho2
          injection ho2 with e
          subst e
          rw [hp] at hpo2
          cases hpo2
        exact ⟨hkh, o2, by rw [fobj, if_neg hkh]; exact ho2, hpo2⟩
      · rintro ⟨hkh, o2, ho2, hpo2⟩
        rw [fobj, if_neg hkh] at ho2
        exact (hW.mem_det k).mpr ⟨o2, ho2, hpo2⟩
    · intro q
      simp only [Objects.updAt_byPos, Objects.updObj_byPos]
      split
      · exact (hW.nodup_pos p).filter _
      · exact hW.nodup_pos q
    · simp only [Objects.updAt_detached, Objects.updObj_detached]
      exact hW.nodup_det
    · intro q
      simp only [Objects.updAt_byPos, Objects.updObj_byPos]
      have transfer : ∀ l : List Handle, (∀ k ∈ l, k ≠ h) → l.Pairwise (LeH s) →
          l.Pairwise (LeH ((s.updObj h (fun oo => { oo with pos := Option.none })).updAt p
            ((s.byPos p).filter (fun hh => hh ≠ h)))) := by
        intro l hne hl
        refine (pairwise_LeH_congr ?_ ?_).mp hl
        · rfl
        · intro k hk
          simp only [Objects.updAt_objects]
          rw [fobj, if_neg (hne k hk)]
      split
      case isTrue hq =>
        refine transfer _ ?_ ((hW.sorted p).sublist (List.filter_sublist _))
        intro k hk
        rcases List.mem_filter.mp hk with ⟨_, hkh⟩
        simpa using hkh
      case isFalse hq =>
        refine transfer _ ?_ (hW.sorted q)
        intro k hk
        rintro rfl
        rcases (hW.mem_pos k q).mp hk with ⟨o2, ho2, hpo2⟩
        rw [ho] at ho2
        injection ho2 with e
        subst e
        rw [hp] at hpo2
        injection hpo2 with e2
        exact hq e2.symm
    · show (s.updObj h (fun oo => { oo with pos := Option.none })).objects h = _
      rw [fobj, if_pos rfl]
  | none =>
    rw [Objects.remove_eq_of_pos_none ho hp]
    refine ⟨⟨?_, ?_, ?_, ?_, ?_, ?_, ?_⟩, ?_, rfl⟩
    · intro k hk
      have hk2 : s.nextHandle ≤ k := hk
      have hlt2 : h < s.nextHandle := hlt
      have hkh : k ≠ h := (Nat.lt_of_lt_of_le hlt2 hk2).ne'
      show (s.updObj h (fun oo => { oo with pos := Option.none })).objects k = Option.none
      rw [fobj, if_neg hkh]
      exact hW.fresh k hk2
    · show ((s.updObj h (fun oo => { oo with pos := Option.none })).objects h).isSome
      rw [fobj, if_pos rfl]; rfl
    · intro k q
      show k ∈ s.byPos q ↔ _
      constructor
      · intro hm
        rcases (hW.mem_pos k q).mp hm with ⟨o2, ho2, hpo2⟩
        have hkh : k ≠ h := by
          rintro rfl
          rw [ho] at ho2
          injection ho2 with e
          subst e
          rw [hp] at hpo2
          cases hpo2
        exact ⟨hkh, o2, by rw [fobj, if_neg hkh]; exact ho2, hpo2⟩
      · rintro ⟨hkh, o2, ho2, hpo2⟩
        rw [fobj, if_neg hkh] at ho2
        exact (hW.mem_pos k q).mpr ⟨o2, ho2, hpo2⟩
    · intro k
      show k ∈ s.detached.filter (fun hh => hh ≠ h) ↔ _
      constructor
      · intro hm
        rcases List.mem_filter.mp hm with ⟨hk, hkh⟩
        have hkh : k ≠ h := by simpa using hkh
        rcases (hW.mem_det k).mp hk with ⟨o2, ho2, hpo2⟩
        exact ⟨hkh, o2, by rw [fobj, if_neg hkh]; exact ho2, hpo2⟩
      · rintro ⟨hkh, o2, ho2, hpo2⟩
        rw [fobj, if_neg hkh] at ho2
        exact List.mem_filter.mpr ⟨(hW.mem_det k).mpr ⟨o2, ho2, hpo2⟩, by simpa using hkh⟩
    · intro q
      exact hW.nodup_pos q
    · exact hW.nodup_det.filter _
    · intro q
      have transfer : ∀ l : List Handle, (∀ k ∈ l, k ≠ h) → l.Pairwise (LeH s) →
          l.Pairwise (LeH { s.updObj h (fun oo => { oo with pos := Option.none }) with
            detached := s.detached.filter (fun hh => hh ≠ h) }) := by
        intro l hne hl
        refine (pairwise_LeH_congr ?_ ?_).mp hl
        · rfl
        · intro k hk
          show s.objects k =
            (s.updObj h (fun oo => { oo with pos := Option.none })).objects k
          rw [fobj, if_neg (hne k hk)]
      refine transfer _ ?_ (hW.sorted q)
      intro k hk
      rintro rfl
      rcases (hW.mem_pos k q).mp hk with ⟨o2, ho2, hpo2⟩
      rw [ho] at ho2
      injection ho2 with e
      subst e
      rw [hp] at hpo2
      cases hpo2
    · show (s.updObj h (fun oo => { oo with pos := Option.none })).objects h = _
      rw [fobj, if_pos rfl]

@[simp] theorem Objects.insert_into_objects_some (s : Objects) (h : Handle) (p : EPoint)
    (r : Bool) :
    (s.insert_into_tile_grid h (some p) r).objects h =
      (s.objects h).map (fun o =>
        { o with pos := some p, screenShift := if r then ⟨0, 0⟩ else o.screenShift }) := by
  show ((s.updObj h _).updAt _ _).objects h = _
  rw [Objects.updAt_objects, Objects.updObj_objects_self]

@[simp] theorem Objects.insert_into_objects_none (s : Objects) (h : Handle) (r : Bool) :
    (s.insert_into_tile_grid h Option.none r).objects = s.objects := rfl

theorem Objects.insert_into_eq_some (s : Objects) (h : Handle) (p : EPoint) (r : Bool) :
    s.insert_into_tile_grid h (some p) r =
      (s.updObj h (fun oo =>
          { oo with pos := some p
                    screenShift := if r then ⟨0, 0⟩ else oo.screenShift })).updAt p
        (tileInsertList
          (s.updObj h (fun oo =>
            { oo with pos := some p
                      screenShift := if r then ⟨0, 0⟩ else oo.screenShift }))
          ((s.updObj h (fun oo =>
            { oo with pos := some p
                      screenShift := if r then ⟨0, 0⟩ else oo.screenShift })).getObj h)
          h (s.byPos p)) := rfl

theorem Objects.insert_into_eq_none (s : Objects) (h : Handle) (r : Bool) :
    s.insert_into_tile_grid h Option.none r =
      { s with detached := s.detached ++ [h] } := rfl

/-- Re-indexing a live, unindexed handle restores the full invariant.
For the detached branch the handle's object must already carry no position
(true in both source call sites: `remove_from_tile_grid` has just cleared
it, and `insert` passes the object's own position). -/
theorem Objects.insert_into_spec {s : Objects} {h : Handle} {pos : Option EPoint} {r : Bool}
    (hW : WFx s h)
    (hnone : pos = Option.none → (s.getObj h).pos = Option.none) :
    WF (s.insert_into_tile_grid h pos r) := by
  rcases Option.isSome_iff_exists.mp hW.live with ⟨o, ho⟩
  have hlt : h < s.nextHandle := lt_next_of_live hW.fresh hW.live
  have hnotin : ∀ q, h ∉ s.byPos q := by
    intro q hmem
    exact ((hW.mem_pos h q).mp hmem).1 rfl
  have hnotdet : h ∉ s.detached := fun hmem => ((hW.mem_det h).mp hmem).1 rfl
  cases pos with
  | some p =>
    rw [Objects.insert_into_eq_some]
    set f : Object → Object := fun oo =>
      { oo with pos := some p, screenShift := if r then ⟨0, 0⟩ else oo.screenShift } with hf
    have fobj : ∀ k, (s.updObj h f).objects k =
        if k = h then some (f o) else s.objects k := by
      intro k
      by_cases hk : k = h
      · subst hk; rw [Objects.updObj_objects_self, ho]; simp
      · rw [Objects.updObj_objects_ne _ _ _ hk, if_neg hk]
    have hfpos : (f o).pos = some p := rfl
    refine ⟨?_, ?_, ?_, ?_, ?_, ?_⟩
    · intro k hk
      have hk2 : s.nextHandle ≤ k := hk
      have hkh : k ≠ h := (Nat.lt_of_lt_of_le hlt hk2).ne'
      show (s.updObj h f).objects k = Option.none
      rw [fobj, if_neg hkh]
      exact hW.fresh k hk2
    · intro k q
      simp only [Objects.updAt_objects, Objects.updAt_byPos]
      by_cases hq : q = p
      · subst hq
        rw [if_pos rfl, mem_tileInsertList]
        constructor
        · rintro (rfl | hm)
          · exact ⟨f o, by rw [fobj, if_pos rfl], hfpos⟩
          · rcases (hW.mem_pos k q).mp hm with ⟨hkh, o2, ho2, hpo2⟩
            exact ⟨o2, by rw [fobj, if_neg hkh]; exact ho2, hpo2⟩
        · rintro ⟨o2, ho2, hpo2⟩
          by_cases hkh : k = h
          · exact Or.inl hkh
          · rw [fobj, if_neg hkh] at ho2
            exact Or.inr ((hW.mem_pos k q).mpr ⟨hkh, o2, ho2, hpo2⟩)
      · rw [if_neg hq]
        constructor
        · intro hm
          rcases (hW.mem_pos k q).mp hm with ⟨hkh, o2, ho2, hpo2⟩
          exact ⟨o2, by rw [fobj, if_neg hkh]; exact ho2, hpo2⟩
        · rintro ⟨o2, ho2, hpo2⟩
          by_cases hkh : k = h
          · subst hkh
            rw [fobj, if_pos rfl] at ho2
            injection ho2 with e
            subst e
            rw [hfpos] at hpo2
            injection hpo2 with e2
            exact absurd e2.symm hq
          · rw [fobj, if_neg hkh] at ho2
            exact (hW.mem_pos k q).mpr ⟨hkh, o2, ho2, hpo2⟩
    · intro k
      simp only [Objects.updAt_objects, Objects.updAt_detached, Objects.updObj_detached]
      constructor
      · intro hm
        rcases (hW.mem_det k).mp hm with ⟨hkh, o2, ho2, hpo2⟩
        exact ⟨o2, by rw [fobj, if_neg hkh]; exact ho2, hpo2⟩
      · rintro ⟨o2, ho2, hpo2⟩
        by_cases hkh : k = h
        · subst hkh
          rw [fobj, if_pos rfl] at ho2
          injection ho2 with e
          subst e
          rw [hfpos] at hpo2
          cases hpo2
        · rw [fobj, if_neg hkh] at ho2
          exact (hW.mem_det k).mpr ⟨hkh, o2, ho2, hpo2⟩
    · intro q
      simp only [Objects.updAt_byPos]
      split
      · exact nodup_tileInsertList (hW.nodup_pos p) (hnotin p)
      · exact hW.nodup_pos q
    · simp only [Objects.updAt_detached, Objects.updObj_detached]
      exact hW.nodup_det
    · intro q
      simp only [Objects.updAt_byPos]
      have hbase : ∀ l : List Handle, (∀ k ∈ l, k ≠ h) → l.Pairwise (LeH s) →
          l.Pairwise (LeH (s.updObj h f)) := by
        intro l hne hl
        refine (pairwise_LeH_congr ?_ ?_).mp hl
        · rfl
        · intro k hk
          rw [fobj, if_neg (hne k hk)]
      have hstep : ∀ l : List Handle, l.Pairwise (LeH (s.updObj h f)) →
          l.Pairwise (LeH ((s.updObj h f).updAt p
            (tileInsertList (s.updObj h f) ((s.updObj h f).getObj h) h (s.byPos p)))) := by
        intro l hl
        refine (pairwise_LeH_congr ?_ ?_).mp hl
        · rfl
        · intro k _
          rfl
      split
      case isTrue hq =>
        refine hstep _ (pairwise_tileInsertList rfl (hbase _ ?_ (hW.sorted p)))
        intro k hk
        rintro rfl
        exact hnotin p hk
      case isFalse hq =>
        refine hstep _ (hbase _ ?_ (hW.sorted q))
        intro k hk
        rintro rfl
        exact hnotin q hk
  | none =>
    have hop : o.pos = Option.none := by
      have hx := hnone rfl
      unfold Objects.getObj at hx
      rw [ho] at hx
      exact hx
    rw [Objects.insert_into_eq_none]
    refine ⟨?_, ?_, ?_, ?_, ?_, ?_⟩
    · intro k hk
      exact hW.fresh k hk
    · intro k q
      show k ∈ s.byPos q ↔ ∃ o2, s.objects k = some o2 ∧ o2.pos = some q
      constructor
      · intro hm
        exact ((hW.mem_pos k q).mp hm).2
      · rintro ⟨o2, ho2, hpo2⟩
        by_cases hkh : k = h
        · subst hkh
          rw [ho] at ho2
          injection ho2 with e
          subst e
          rw [hop] at hpo2
          cases hpo2
        · exact (hW.mem_pos k q).mpr ⟨hkh, o2, ho2, hpo2⟩
    · intro k
      show k ∈ s.detached ++ [h] ↔ ∃ o2, s.objects k = some o2 ∧ o2.pos = Option.none
      rw [List.mem_append, List.mem_singleton]
      constructor
      · rintro (hm | rfl)
        · exact ((hW.mem_det k).mp hm).2
        · exact ⟨o, ho, hop⟩
      · rintro ⟨o2, ho2, hpo2⟩
        by_cases hkh : k = h
        · exact Or.inr hkh
        · exact Or.inl ((hW.mem_det k).mpr ⟨hkh, o2, ho2, hpo2⟩)
    · intro q
      exact hW.nodup_pos q
    · show (s.detached ++ [h]).Nodup
      rw [List.nodup_append]
      refine ⟨hW.nodup_det, List.nodup_singleton h, ?_⟩
      intro a ha hb
      rw [List.mem_singleton] at hb
      subst hb
      exact hnotdet ha
    · intro q
      refine (pairwise_LeH_congr ?_ ?_).mp (hW.sorted q)
      · rfl
      · intro k _
        rfl

/-- Mutating the unindexed handle's entity keeps the mid-mutation invariant
(used for the screen-shift writes between removal and re-insertion). -/
theorem Objects.WFx_updObj {s : Objects} {h : Handle} (hW : WFx s h) (f : Object → Object) :
    WFx (s.updObj h f) h := by
  rcases Option.isSome_iff_exists.mp hW.live with ⟨o, ho⟩
  have hlt : h < s.nextHandle := lt_next_of_live hW.fresh hW.live
  have fobj : ∀ k, (s.updObj h f).objects k =
      if k = h then some (f o) else s.objects k := by
    intro k
    by_cases hk : k = h
    · subst hk; rw [Objects.updObj_objects_self, ho]; simp
    · rw [Objects.updObj_objects_ne _ _ _ hk, if_neg hk]
  refine ⟨?_, ?_, ?_, ?_, hW.nodup_pos, hW.nodup_det, ?_⟩
  · intro k hk
    have hk2 : s.nextHandle ≤ k := hk
    have hkh : k ≠ h := (Nat.lt_of_lt_of_le hlt hk2).ne'
    rw [fobj, if_neg hkh]
    exact hW.fresh k hk2
  · rw [fobj, if_pos rfl]; rfl
  · intro k q
    show k ∈ s.byPos q ↔ _
    constructor
    · intro hm
      rcases (hW.mem_pos k q).mp hm with ⟨hkh, o2, ho2, hpo2⟩
      exact ⟨hkh, o2, by rw [fobj, if_neg hkh]; exact ho2, hpo2⟩
    · rintro ⟨hkh, o2, ho2, hpo2⟩
      rw [fobj, if_neg hkh] at ho2
      exact (hW.mem_pos k q).mpr ⟨hkh, o2, ho2, hpo2⟩
  · intro k
    show k ∈ s.detached ↔ _
    constructor
    · intro hm
      rcases (hW.mem_det k).mp hm with ⟨hkh, o2, ho2, hpo2⟩
      exact ⟨hkh, o2, by rw [fobj, if_neg hkh]; exact ho2, hpo2⟩
    · rintro ⟨hkh, o2, ho2, hpo2⟩
      rw [fobj, if_neg hkh] at ho2
      exact (hW.mem_det k).mpr ⟨hkh, o2, ho2, hpo2⟩
  · intro q
    refine (pairwise_LeH_congr ?_ ?_).mp (hW.sorted q)
    · rfl
    · intro k hk
      have hkh : k ≠ h := ((hW.mem_pos k q).mp hk).1
      rw [fobj, if_neg hkh]

theorem Objects.insertObj_eq (s : Objects) (obj : Object) :
    s.insertObj obj =
      ((s.alloc obj).insert_into_tile_grid s.nextHandle obj.pos true, s.nextHandle) := rfl

@[simp] theorem Objects.alloc_objects (s : Objects) (obj : Object) (k : Handle) :
    (s.alloc obj).objects k = if k = s.nextHandle then some obj else s.objects k := rfl

@[simp] theorem Objects.alloc_byPos (s : Objects) (obj : Object) :
    (s.alloc obj).byPos = s.byPos := rfl

@[simp] theorem Objects.alloc_detached (s : Objects) (obj : Object) :
    (s.alloc obj).detached = s.detached := rfl

@[simp] theorem Objects.alloc_nextHandle (s : Objects) (obj : Object) :
    (s.alloc obj).nextHandle = s.nextHandle + 1 := rfl

/-- Allocating a fresh handle and storing its entity yields the
mid-mutation invariant for that handle. -/
theorem Objects.WFx_alloc {s : Objects} (hW : WF s) (obj : Object) :
    WFx (s.alloc obj) s.nextHandle := by
  have hlive_lt : ∀ k (o2 : Object), s.objects k = some o2 → k < s.nextHandle := by
    intro k o2 ho2
    exact lt_next_of_live hW.fresh (by rw [ho2]; rfl)
  refine ⟨?_, ?_, ?_, ?_, hW.nodup_pos, hW.nodup_det, ?_⟩
  · intro k hk
    have hk2 : s.nextHandle + 1 ≤ k := hk
    have hkh : k ≠ s.nextHandle := by omega
    rw [Objects.alloc_objects, if_neg hkh]
    exact hW.fresh k (by omega)
  · rw [Objects.alloc_objects, if_pos rfl]
    rfl
  · intro k q
    show k ∈ s.byPos q ↔ _
    constructor
    · intro hm
      rcases (hW.mem_pos k q).mp hm with ⟨o2, ho2, hpo2⟩
      have hkh : k ≠ s.nextHandle := (hlive_lt k o2 ho2).ne
      refine ⟨hkh, o2, ?_, hpo2⟩
      rw [Objects.alloc_objects, if_neg hkh]
      exact ho2
    · rintro ⟨hkh, o2, ho2, hpo2⟩
      rw [Objects.alloc_objects, if_neg hkh] at ho2
      exact (hW.mem_pos k q).mpr ⟨o2, ho2, hpo2⟩
  · intro k
    show k ∈ s.detached ↔ _
    constructor
    · intro hm
      rcases (hW.mem_det k).mp hm with ⟨o2, ho2, hpo2⟩
      have hkh : k ≠ s.nextHandle := (hlive_lt k o2 ho2).ne
      refine ⟨hkh, o2, ?_, hpo2⟩
      rw [Objects.alloc_objects, if_neg hkh]
      exact ho2
    · rintro ⟨hkh, o2, ho2, hpo2⟩
      rw [Objects.alloc_objects, if_neg hkh] at ho2
      exact (hW.mem_det k).mpr ⟨o2, ho2, hpo2⟩
  · intro q
    refine (pairwise_LeH_congr ?_ ?_).mp (hW.sorted q)
    · rfl
    · intro k hk
      rcases (hW.mem_pos k q).mp hk with ⟨o2, ho2, _⟩
      have hkh : k ≠ s.nextHandle := (hlive_lt k o2 ho2).ne
      rw [Objects.alloc_objects, if_neg hkh]

/-- `insert` preserves the container invariant. -/
theorem Objects.WF_insertObj {s : Objects} (hW : WF s) (obj : Object) :
    WF (s.insertObj obj).1 := by
  rw [Objects.insertObj_eq]
  refine Objects.insert_into_spec (Objects.WFx_alloc hW obj) ?_
  intro hp
  unfold Objects.getObj
  rw [Objects.alloc_objects, if_pos rfl]
  exact hp

/-- `set_pos` preserves the container invariant. -/
theorem Objects.WF_set_pos {s : Objects} {h : Handle} (hW : WF s) (hc : s.containsH h)
    (p : EPoint) : WF (s.set_pos h p) := by
  rcases Option.isSome_iff_exists.mp hc with ⟨o, ho⟩
  rcases Objects.remove_spec hW ho with ⟨hwx, _, _⟩
  exact Objects.insert_into_spec hwx (by intro hx; cases hx)

/-- `set_screen_shift` preserves the container invariant. -/
theorem Objects.WF_set_screen_shift {s : Objects} {h : Handle} (hW : WF s)
    (hc : s.containsH h) (v : Point) : WF (s.set_screen_shift h v) := by
  rcases Option.isSome_iff_exists.mp hc with ⟨o, ho⟩
  rcases Objects.remove_spec hW ho with ⟨hwx, hobj, _⟩
  refine Objects.insert_into_spec (Objects.WFx_updObj hwx _) ?_
  intro _
  unfold Objects.getObj
  rw [Objects.updObj_objects_self, hobj]
  rfl

/-- `add_screen_shift` preserves the container invariant. -/
theorem Objects.WF_add_screen_shift {s : Objects} {h : Handle} (hW : WF s)
    (hc : s.containsH h) (v : Point) : WF (s.add_screen_shift h v).1 := by
  rcases Option.isSome_iff_exists.mp hc with ⟨o, ho⟩
  rcases Objects.remove_spec hW ho with ⟨hwx, hobj, _⟩
  refine Objects.insert_into_spec (Objects.WFx_updObj hwx _) ?_
  intro _
  unfold Objects.getObj
  rw [Objects.updObj_objects_self, hobj]
  rfl

/-- `reset_screen_shift` preserves the container invariant. -/
theorem Objects.WF_reset_screen_shift {s : Objects} {h : Handle} (hW : WF s)
    (hc : s.containsH h) : WF (s.reset_screen_shift h) := by
  rcases Option.isSome_iff_exists.mp hc with ⟨o, ho⟩
  rcases Objects.remove_spec hW ho with ⟨hwx, hobj, _⟩
  refine Objects.insert_into_spec hwx ?_
  intro _
  unfold Objects.getObj
  rw [hobj]
  rfl

/-- Every reachable container state is well-formed. -/
theorem Reachable.wf {s : Objects} (hr : Reachable s) : WF s := by
  induction hr with
  | init _ _ _ _ _ _ =>
    refine ⟨fun _ _ => rfl, ?_, ?_, ?_, ?_, ?_⟩
    · intro k p
      simp
    · intro k
      simp
    · intro p
      exact List.nodup_nil
    · exact List.nodup_nil
    · intro p
      exact List.Pairwise.nil
  | insertObj obj _ ih => exact Objects.WF_insertObj ih obj
  | set_pos h p _ hc ih => exact Objects.WF_set_pos ih hc p
  | set_screen_shift h v _ hc ih => exact Objects.WF_set_screen_shift ih hc v
  | add_screen_shift h v _ hc ih => exact Objects.WF_add_screen_shift ih hc v
  | reset_screen_shift h _ hc ih => exact Objects.WF_reset_screen_shift ih hc

/-- C1: in every reachable container state — hence after every sequence of
`insert`/`set_pos`/`set_screen_shift`/`add_screen_shift`/`reset_screen_shift`
— an object with `pos = Some p` occurs exactly once in the tile list of `p`,
in no other tile list and not in the detached list; an object with
`pos = None` occurs exactly once in the detached list and in no tile list;
and every tile list is sorted by the draw-order comparator. -/
theorem reachable_tile_lists_partition_sorted {s : Objects} (hr : Reachable s) :
    (∀ h o, s.objects h = some o →
      (∀ p, o.pos = some p →
        (s.atPos p).count h = 1 ∧
        (∀ q, q ≠ p → (s.atPos q).count h = 0) ∧
        h ∉ s.detached) ∧
      (o.pos = Option.none →
        s.detached.count h = 1 ∧ ∀ q, (s.atPos q).count h = 0)) ∧
    (∀ p, (s.atPos p).Pairwise (fun h1 h2 => s.cmpH h1 h2 ≠ .gt)) := by
  have hW := hr.wf
  constructor
  · intro h o ho
    constructor
    · intro p hp
      have hmem : h ∈ s.byPos p := (hW.mem_pos h p).mpr ⟨o, ho, hp⟩
      refine ⟨?_, ?_, ?_⟩
      · exact List.count_eq_one_of_mem (hW.nodup_pos p) hmem
      · intro q hq
        rw [List.count_eq_zero]
        intro hmq
        rcases (hW.mem_pos h q).mp hmq with ⟨o2, ho2, hpo2⟩
        rw [ho] at ho2
        injection ho2 with e
        subst e
        rw [hp] at hpo2
        injection hpo2 with e2
        exact hq e2.symm
      · intro hmd
        rcases (hW.mem_det h).mp hmd with ⟨o2, ho2, hpo2⟩
        rw [ho] at ho2
        injection ho2 with e
        subst e
        rw [hp] at hpo2
        cases hpo2
    · intro hp
      have hmem : h ∈ s.detached := (hW.mem_det h).mpr ⟨o, ho, hp⟩
      refine ⟨List.count_eq_one_of_mem hW.nodup_det hmem, ?_⟩
      intro q
      rw [List.count_eq_zero]
      intro hmq
      rcases (hW.mem_pos h q).mp hmq with ⟨o2, ho2, hpo2⟩
      rw [ho] at ho2
      injection ho2 with e
      subst e
      rw [hp] at hpo2
      cases hpo2
  · intro p
    exact hW.sorted p

/-- C1 witness: the invariant instantiated on the concrete reachable state
obtained by inserting one placed object into a fresh container. -/
theorem reachable_tile_lists_partition_sorted_witness :
    (∀ h o, (demoState0.insertObj demoObjA).1.objects h = some o →
      (∀ p, o.pos = some p →
        ((demoState0.insertObj demoObjA).1.atPos p).count h = 1 ∧
        (∀ q, q ≠ p → ((demoState0.insertObj demoObjA).1.atPos q).count h = 0) ∧
        h ∉ (demoState0.insertObj demoObjA).1.detached) ∧
      (o.pos = Option.none →
        (demoState0.insertObj demoObjA).1.detached.count h = 1 ∧
        ∀ q, ((demoState0.insertObj demoObjA).1.atPos q).count h = 0)) ∧
    (∀ p, ((demoState0.insertObj demoObjA).1.atPos p).Pairwise
      (fun h1 h2 => (demoState0.insertObj demoObjA).1.cmpH h1 h2 ≠ .gt)) :=
  reachable_tile_lists_partition_sorted
    (Reachable.insertObj demoObjA (Reachable.init _ _ _ _ _ _))

theorem cmpKey_gt_iff_swap (k1 k2 : Nat × Int × Int) :
    cmpKey k1 k2 = .gt ↔ cmpKey k2 k1 = .lt := by
  unfold cmpKey cmpInt
  split_ifs <;> simp_all <;> omega

/-- C2: for objects placed on one elevation the draw-order comparator is the
total order that puts flat objects first, then compares total vertical shift
(screen shift plus the frame's intrinsic shift) ascending, with horizontal
shift as the tie-break; consequently a flat object A and a non-flat object B
with zero shifts inserted into one tile end up with A before B in the tile
list under either insertion order (handles are allocated 0, then 1). -/
theorem cmp_objs_total_order_and_scenario (s : Objects) (o1 o2 : Object) (p1 p2 : EPoint)
    (hp1 : o1.pos = some p1) (hp2 : o2.pos = some p2)
    (helev : p1.elevation = p2.elevation) :
    (s.cmp_objs o1 o2 = .gt ↔ s.cmp_objs o2 o1 = .lt) ∧
    (∀ o3 : Object, s.cmp_objs o1 o2 ≠ .gt → s.cmp_objs o2 o3 ≠ .gt →
      s.cmp_objs o1 o3 ≠ .gt) ∧
    (o1.flags.flat = true → o2.flags.flat = false → s.cmp_objs o1 o2 = .lt) ∧
    (o1.flags.flat = o2.flags.flat →
      (s.cmp_objs o1 o2 = .lt ↔
        ((o1.screenShift + s.frmShift o1.fid o1.direction o1.frameIdx).y <
            (o2.screenShift + s.frmShift o2.fid o2.direction o2.frameIdx).y ∨
          ((o1.screenShift + s.frmShift o1.fid o1.direction o1.frameIdx).y =
              (o2.screenShift + s.frmShift o2.fid o2.direction o2.frameIdx).y ∧
            (o1.screenShift + s.frmShift o1.fid o1.direction o1.frameIdx).x <
              (o2.screenShift + s.frmShift o2.fid o2.direction o2.frameIdx).x)))) ∧
    ((demoState0.insertObj demoFlatA).1.insertObj demoPlainB).1.atPos demoTile = [0, 1] ∧
    ((demoState0.insertObj demoPlainB).1.insertObj demoFlatA).1.atPos demoTile = [1, 0] := by
  refine ⟨?_, ?_, ?_, ?_, ?_, ?_⟩
  · rw [Objects.cmp_objs_eq_cmpKey, Objects.cmp_objs_eq_cmpKey]
    exact cmpKey_gt_iff_swap _ _
  · intro o3 hab hbc
    rw [Objects.cmp_objs_eq_cmpKey, cmpKey_ne_gt_iff] at hab hbc ⊢
    exact leK_trans hab hbc
  · intro hf1 hf2
    unfold Objects.cmp_objs
    rw [hf1, hf2]
    simp
  · intro hfe
    unfold Objects.cmp_objs
    rw [← hfe]
    simp only [ne_eq, not_true_eq_false, if_false, cmpInt]
    split_ifs <;> simp_all <;> omega
  · decide
  · decide

/-- C2 witness: the comparator theorem applied to the two concrete scenario
objects sharing `demoTile`; the flat object compares `Less`. -/
theorem cmp_objs_total_order_and_scenario_witness :
    demoFlatA.pos = some demoTile ∧ demoPlainB.pos = some demoTile ∧
    demoState0.cmp_objs demoFlatA demoPlainB = .lt :=
  ⟨rfl, rfl,
    (cmp_objs_total_order_and_scenario demoState0 demoFlatA demoPlainB demoTile demoTile
      rfl rfl rfl).2.2.1 rfl rfl⟩

theorem readU32BE_encode {v : Nat} (hv : v < 4294967296) (rest : List Nat) :
    readU32BE (encodeU32BE v ++ rest) = some (v, rest) := by
  unfold encodeU32BE readU32BE
  simp only [List.cons_append, List.nil_append]
  congr 2
  omega

/-- C3: the packed `ObjectProtoId` wire form round-trips.  The prototype
database reserves the two sentinel patterns (they are not valid prototype
ids); under that contract `from_packed (x.pack) = some x` for the sentinels
and every valid prototype id, `from_packed` rejects every other 32-bit
value, and `read` of such a value fails with the malformed-data error
naming it. -/
theorem objectProtoId_roundtrip (valid : Nat → Bool) (p : ProtoId) (v : Nat)
    (hres1 : valid 0xffffffff = false) (hres2 : valid 0x01000000 = false)
    (hvp : valid p.packed = true)
    (hv3 : valid v = false) (hv1 : v ≠ 0xffffffff) (hv2 : v ≠ 0x01000000)
    (hv0 : v < 4294967296) :
    ObjectProtoId.pack .none = 0xffffffff ∧
    ObjectProtoId.pack .dude = 0x01000000 ∧
    ObjectProtoId.from_packed valid (ObjectProtoId.pack .none) = some .none ∧
    ObjectProtoId.from_packed valid (ObjectProtoId.pack .dude) = some .dude ∧
    ObjectProtoId.from_packed valid (ObjectProtoId.pack (.protoId p)) =
      some (.protoId p) ∧
    ObjectProtoId.from_packed valid v = Option.none ∧
    (∀ rest, ObjectProtoId.read valid (encodeU32BE v ++ rest) =
      .error (.invalidData v)) := by
  have hp1 : p.packed ≠ 0xffffffff := by
    intro e
    rw [e, hres1] at hvp
    cases hvp
  have hp2 : p.packed ≠ 0x01000000 := by
    intro e
    rw [e, hres2] at hvp
    cases hvp
  refine ⟨rfl, rfl, by rfl, ?_, ?_, ?_, ?_⟩
  · show ObjectProtoId.from_packed valid 0x01000000 = some .dude
    unfold ObjectProtoId.from_packed
    rw [if_neg (by norm_num), if_pos rfl]
  · show ObjectProtoId.from_packed valid p.packed = some (.protoId p)
    unfold ObjectProtoId.from_packed ProtoId.from_packed
    rw [if_neg hp1, if_neg hp2, if_pos hvp]
    rfl
  · unfold ObjectProtoId.from_packed ProtoId.from_packed
    rw [if_neg hv1, if_neg hv2, if_neg (by rw [hv3]; exact Bool.false_ne_true)]
    rfl
  · intro rest
    have hnone : ObjectProtoId.from_packed valid v = Option.none := by
      unfold ObjectProtoId.from_packed ProtoId.from_packed
      rw [if_neg hv1, if_neg hv2, if_neg (by rw [hv3]; exact Bool.false_ne_true)]
      rfl
    unfold ObjectProtoId.read
    rw [readU32BE_encode hv0]
    simp only [hnone]

/-- C3 witness: round-trip instantiated at a prototype database that deems
only `42` valid, with `7` as the malformed value. -/
theorem objectProtoId_roundtrip_witness :
    (fun n => n == 42) (ProtoId.mk 42).packed = true ∧
    ObjectProtoId.from_packed (fun n => n == 42)
      (ObjectProtoId.pack (.protoId ⟨42⟩)) = some (.protoId ⟨42⟩) ∧
    ObjectProtoId.from_packed (fun n => n == 42) 7 = Option.none ∧
    ObjectProtoId.read (fun n => n == 42) (encodeU32BE 7) =
      .error (.invalidData 7) := by
  have h := objectProtoId_roundtrip (fun n => n == 42) ⟨42⟩ 7
    (by decide) (by decide) (by decide) (by decide) (by decide) (by decide) (by decide)
  refine ⟨by decide, h.2.2.2.2.1, h.2.2.2.2.2.1, ?_⟩
  have h7 := h.2.2.2.2.2.2 []
  rw [List.append_nil] at h7
  exact h7

/-- C9: `distance` is the hex distance lowered by one per multi-hex
endpoint, truncated at zero; it is symmetric whenever the underlying hex
distance is; and it is `None` as soon as either object is detached. -/
theorem distance_multihex_symmetric (s : Objects) (a b : Handle) (oa ob : Object)
    (ha : s.objects a = some oa) (hb : s.objects b = some ob)
    (hsym : ∀ p q, s.hexDist p q = s.hexDist q p) :
    (∀ pa pb, oa.pos = some pa → ob.pos = some pb →
      s.distance a b = some (s.hexDist pa.point pb.point -
        ((if oa.flags.multiHex then 1 else 0) + (if ob.flags.multiHex then 1 else 0)))) ∧
    s.distance a b = s.distance b a ∧
    ((oa.pos = Option.none ∨ ob.pos = Option.none) → s.distance a b = Option.none) := by
  have hga : s.getObj a = oa := by unfold Objects.getObj; rw [ha]; rfl
  have hgb : s.getObj b = ob := by unfold Objects.getObj; rw [hb]; rfl
  have hcompute : ∀ (o1 o2 : Object) (p1 p2 : EPoint), o1.pos = some p1 → o2.pos = some p2 →
      Object.distance s.hexDist o1 o2 = some (s.hexDist p1.point p2.point -
        ((if o1.flags.multiHex then 1 else 0) + (if o2.flags.multiHex then 1 else 0))) := by
    intro o1 o2 p1 p2 hp1 hp2
    unfold Object.distance
    rw [hp1, hp2]
    congr 1
    cases hm1 : o1.flags.multiHex <;> cases hm2 : o2.flags.multiHex <;> simp <;> first
      | omega
      | (split_ifs <;> omega)
  refine ⟨?_, ?_, ?_⟩
  · intro pa pb hpa hpb
    unfold Objects.distance
    rw [hga, hgb]
    exact hcompute oa ob pa pb hpa hpb
  · unfold Objects.distance
    rw [hga, hgb]
    cases hpa : oa.pos with
    | some pa =>
      cases hpb : ob.pos with
      | some pb =>
        rw [hcompute oa ob pa pb hpa hpb, hcompute ob oa pb pa hpb hpa, hsym]
        congr 2
        omega
      | none =>
        unfold Object.distance
        rw [hpa, hpb]
    | none =>
      cases hpb : ob.pos with
      | some pb =>
        unfold Object.distance
        rw [hpa, hpb]
      | none =>
        unfold Object.distance
        rw [hpa, hpb]
  · intro hdet
    unfold Objects.distance Object.distance
    rw [hga, hgb]
    rcases hdet with hd | hd
    · rw [hd]
    · rw [hd]
      cases oa.pos <;> rfl

/-- C9 witness: distance between a multi-hex and a plain object at raw hex
distance 5 is 4, symmetrically. -/
theorem distance_multihex_symmetric_witness :
    demoDistState.objects 0 = some demoMulti ∧
    demoDistState.objects 1 = some demoPlainB ∧
    demoDistState.distance 0 1 = some 4 ∧
    demoDistState.distance 0 1 = demoDistState.distance 1 0 := by
  have h := distance_multihex_symmetric demoDistState 0 1 demoMulti demoPlainB
    rfl rfl (fun _ _ => rfl)
  refine ⟨rfl, rfl, ?_, h.2.1⟩
  have h1 := h.1 ⟨0, ⟨0, 0⟩⟩ demoTile rfl rfl
  simpa using h1

/-- The `check` closure of `is_blocked_at`, characterized. -/
theorem Objects.blockCheck_iff (s : Objects) (obj h : Handle) :
    s.blockCheck obj h = true ↔
      h ≠ obj ∧
      ((s.getObj h).kind = .critter ∨ (s.getObj h).kind = .scenery ∨
        (s.getObj h).kind = .wall) ∧
      (s.getObj h).flags.turnedOff = false ∧ (s.getObj h).flags.noBlock = false := by
  unfold Objects.blockCheck
  by_cases hobj : h = obj
  · simp [hobj]
  · rw [if_neg hobj]
    cases hk : (s.getObj h).kind <;> simp [hk, hobj]

/-- C4: `is_blocked_at` holds exactly when the tile hosts a critter, scenery
or wall other than the querying object that is neither turned off nor
no-block-flagged, or some adjacent tile (same elevation) hosts such an
object that is additionally multi-hex flagged.  In particular a tile whose
occupants are all turned off or no-block (with no multi-hex neighbors) is
not blocked, while a tile with an unflagged critter is. -/
theorem is_blocked_at_iff (s : Objects) (obj : Handle) (pos : EPoint) :
    (s.is_blocked_at obj pos = true ↔
      ((∃ h ∈ s.atPos pos, h ≠ obj ∧
          ((s.getObj h).kind = .critter ∨ (s.getObj h).kind = .scenery ∨
            (s.getObj h).kind = .wall) ∧
          (s.getObj h).flags.turnedOff = false ∧ (s.getObj h).flags.noBlock = false) ∨
        (∃ dir ∈ Direction.all, ∃ near, s.go pos.point dir = some near ∧
          ∃ h ∈ s.atPos ⟨pos.elevation, near⟩, (s.getObj h).flags.multiHex = true ∧
            h ≠ obj ∧
            ((s.getObj h).kind = .critter ∨ (s.getObj h).kind = .scenery ∨
              (s.getObj h).kind = .wall) ∧
            (s.getObj h).flags.turnedOff = false ∧
            (s.getObj h).flags.noBlock = false))) ∧
    ((∀ h ∈ s.atPos pos,
        (s.getObj h).flags.turnedOff = true ∨ (s.getObj h).flags.noBlock = true) →
      (∀ dir near, s.go pos.point dir = some near →
        s.atPos ⟨pos.elevation, near⟩ = []) →
      s.is_blocked_at obj pos = false) ∧
    (∀ h ∈ s.atPos pos, h ≠ obj → (s.getObj h).kind = .critter →
      (s.getObj h).flags.turnedOff = false → (s.getObj h).flags.noBlock = false →
      s.is_blocked_at obj pos = true) := by
  have hmain : s.is_blocked_at obj pos = true ↔
      (∃ h ∈ s.atPos pos, s.blockCheck obj h = true) ∨
      (∃ dir ∈ Direction.all, ∃ near, s.go pos.point dir = some near ∧
        ∃ h ∈ s.atPos ⟨pos.elevation, near⟩,
          ((s.getObj h).flags.multiHex && s.blockCheck obj h) = true) := by
    unfold Objects.is_blocked_at
    rw [Bool.or_eq_true, List.any_eq_true, List.any_eq_true]
    constructor
    · rintro (⟨h, hm, hc⟩ | ⟨dir, hd, hc⟩)
      · exact Or.inl ⟨h, hm, hc⟩
      · cases hgo : s.go pos.point dir with
        | some near =>
          rw [hgo] at hc
          rw [List.any_eq_true] at hc
          rcases hc with ⟨h, hm, hc⟩
          exact Or.inr ⟨dir, hd, near, hgo, h, hm, hc⟩
        | none =>
          rw [hgo] at hc
          cases hc
    · rintro (⟨h, hm, hc⟩ | ⟨dir, hd, near, hgo, h, hm, hc⟩)
      · exact Or.inl ⟨h, hm, hc⟩
      · refine Or.inr ⟨dir, hd, ?_⟩
        rw [hgo, List.any_eq_true]
        exact ⟨h, hm, hc⟩
  refine ⟨?_, ?_, ?_⟩
  · rw [hmain]
    constructor
    · rintro (⟨h, hm, hc⟩ | ⟨dir, hd, near, hgo, h, hm, hc⟩)
      · exact Or.inl ⟨h, hm, (s.blockCheck_iff obj h).mp hc⟩
      · rw [Bool.and_eq_true] at hc
        rcases (s.blockCheck_iff obj h).mp hc.2 with ⟨hne, hkind, hoff, hnb⟩
        exact Or.inr ⟨dir, hd, near, hgo, h, hm, hc.1, hne, hkind, hoff, hnb⟩
    · rintro (⟨h, hm, hne, hkind, hoff, hnb⟩ |
        ⟨dir, hd, near, hgo, h, hm, hmh, hne, hkind, hoff, hnb⟩)
      · exact Or.inl ⟨h, hm, (s.blockCheck_iff obj h).mpr ⟨hne, hkind, hoff, hnb⟩⟩
      · refine Or.inr ⟨dir, hd, near, hgo, h, hm, ?_⟩
        rw [Bool.and_eq_true]
        exact ⟨hmh, (s.blockCheck_iff obj h).mpr ⟨hne, hkind, hoff, hnb⟩⟩
  · intro hall hempty
    rw [Bool.eq_false_iff]
    intro htrue
    rcases hmain.mp htrue with (⟨h, hm, hc⟩ | ⟨dir, _, near, hgo, h, hm, _⟩)
    · rcases (s.blockCheck_iff obj h).mp hc with ⟨_, _, hoff, hnb⟩
      rcases hall h hm with he | he
      · rw [hoff] at he
        cases he
      · rw [hnb] at he
        cases he
    · rw [hempty dir near hgo] at hm
      cases hm
  · intro h hm hne hkind hoff hnb
    rw [hmain]
    exact Or.inl ⟨h, hm, (s.blockCheck_iff obj h).mpr ⟨hne, Or.inl hkind, hoff, hnb⟩⟩

theorem shotCheckList_false_eq (s : Objects) (obj : Handle) (l : List Handle) :
    s.shotCheckList obj false l = l.find? (shotMainPred s obj) := by
  induction l with
  | nil => rfl
  | cons h t ih =>
    by_cases hobj : h = obj
    · subst hobj
      simp [Objects.shotCheckList, shotMainPred, List.find?_cons, ih]
    · cases hoff : (s.getObj h).flags.turnedOff <;>
        cases hnb : (s.getObj h).flags.noBlock <;>
        cases hst : (s.getObj h).flags.shootThru <;>
        cases hk : ((s.getObj h).kind == EntityKind.scenery ||
          (s.getObj h).kind == EntityKind.wall ||
          (s.getObj h).kind == EntityKind.critter) <;>
        simp [Objects.shotCheckList, shotMainPred, hoff, hnb, hst, hk, hobj,
          List.find?_cons, ih]

theorem shotCheckList_true_eq (s : Objects) (obj : Handle) (l : List Handle) :
    s.shotCheckList obj true l =
      (l.takeWhile (fun h => (s.getObj h).flags.multiHex)).find? (shotMultiPred s obj) := by
  induction l with
  | nil => rfl
  | cons h t ih =>
    by_cases hobj : h = obj
    · subst hobj
      cases hmh : (s.getObj h).flags.multiHex <;>
        simp [Objects.shotCheckList, shotMultiPred, hmh, List.takeWhile_cons,
          List.find?_cons, ih]
    · cases hmh : (s.getObj h).flags.multiHex <;>
        cases hoff : (s.getObj h).flags.turnedOff <;>
        cases hnb : (s.getObj h).flags.noBlock <;>
        cases hk : ((s.getObj h).kind == EntityKind.scenery ||
          (s.getObj h).kind == EntityKind.wall ||
          (s.getObj h).kind == EntityKind.critter) <;>
        simp [Objects.shotCheckList, shotMultiPred, hmh, hoff, hnb, hk, hobj,
          List.takeWhile_cons, List.find?_cons, ih]

theorem findSome?_congr {α β : Type} {f g : α → Option β} :
    ∀ {l : List α}, (∀ x ∈ l, f x = g x) → l.findSome? f = l.findSome? g := by
  intro l h
  induction l with
  | nil => rfl
  | cons a t ih =>
    rw [List.findSome?_cons, List.findSome?_cons, h a (List.mem_cons_self a t)]
    cases g a with
    | some b => rfl
    | none => exact ih (fun x hx => h x (List.mem_cons_of_mem _ hx))

/-- C5 (amended): `shot_blocker_at` returns the first blocker in the tile's
own list; otherwise it scans the six neighbor tiles in direction order, but
each neighbor list only up to its first object that is not flagged
multi-hex, for a multi-hex blocker (shoot-through being ignored there); it
returns `None` exactly when these scans find nothing. -/
theorem shot_blocker_at_prefix_scan (s : Objects) (obj : Handle) (pos : EPoint) :
    s.shot_blocker_at obj pos =
      match (s.atPos pos).find? (shotMainPred s obj) with
      | some h => some h
      | Option.none =>
        Direction.all.findSome? (fun dir =>
          match s.go pos.point dir with
          | some p => ((s.atPos ⟨pos.elevation, p⟩).takeWhile
              (fun h => (s.getObj h).flags.multiHex)).find? (shotMultiPred s obj)
          | Option.none => Option.none) := by
  unfold Objects.shot_blocker_at
  rw [shotCheckList_false_eq]
  cases hfind : (s.atPos pos).find? (shotMainPred s obj) with
  | some h => rfl
  | none =>
    show Direction.all.findSome? _ = Direction.all.findSome? _
    refine findSome?_congr ?_
    intro dir _
    cases hgo : s.go pos.point dir with
    | some p =>
      show s.shotCheckList obj true _ = _
      rw [shotCheckList_true_eq]
    | none => rfl

/-- C5 counterexample: the claim reads the fallback as checking the
neighbor tiles for multi-hex objects; on this state that reading yields the
multi-hex critter `6`, but `shot_blocker_at` stops the neighbor scan at the
first non-multi-hex object and returns `None`. -/
theorem shot_blocker_at_spec_counterexample :
    demoShotState.shot_blocker_at 99 demoShotTile = Option.none ∧
    specShotBlockerAt demoShotState 99 demoShotTile = some 6 := by
  constructor
  · decide
  · decide

/-- C4 witness: a tile holding one unflagged critter blocks any other
object. -/
theorem is_blocked_at_iff_witness :
    0 ∈ demoBlockState.atPos demoTile ∧
    demoBlockState.is_blocked_at 99 demoTile = true :=
  ⟨by decide,
    (is_blocked_at_iff demoBlockState 99 demoTile).2.2 0 (by decide) (by decide)
      rfl rfl rfl⟩

/-- When the object is not a non-flat wall lacking a prototype reference,
one `light_test` step cannot hit the `proto_id().unwrap()` panic. -/
theorem lightUpdateStep_isSome (s : Objects) (input : LightTest) (o : Object) (u : Bool)
    (hnp : ¬(o.fid.kind = EntityKind.wall ∧ o.flags.flat = false ∧
      o.pid.proto_id = Option.none)) :
    (s.lightUpdateStep input o u).isSome := by
  unfold Objects.lightUpdateStep
  by_cases hk : o.fid.kind = EntityKind.wall
  · cases hf : o.flags.flat with
    | false =>
      cases hp : o.pid.proto_id with
      | none => exact absurd ⟨hk, hf, hp⟩ hnp
      | some pid => simp [hk, hf, hp]
    | true => simp [hk, hf]
  · simp [hk]
    split <;> simp

/-- The characterization of the `light_test` object loop, assuming no listed
object is a non-flat wall without a prototype reference (those panic): the
first non-turned-off, non-light-through object blocks, returning the
`update` accumulated over all non-turned-off objects up to and including
it; without a blocker the whole list's accumulated `update` is returned
with `block := false`. -/
theorem lightTestLoop_eq (s : Objects) (input : LightTest) :
    ∀ (l : List Handle) (u : Bool),
      (∀ h ∈ l, ¬((s.getObj h).fid.kind = EntityKind.wall ∧
        (s.getObj h).flags.flat = false ∧ (s.getObj h).pid.proto_id = Option.none)) →
      s.lightTestLoop input u l =
        some (match l.find? (fun h => !(s.getObj h).flags.turnedOff &&
            !(s.getObj h).flags.lightThru) with
        | some b =>
          ⟨true, ((l.takeWhile (fun h => (s.getObj h).flags.turnedOff ||
              (s.getObj h).flags.lightThru)).filter
                (fun h => !(s.getObj h).flags.turnedOff) ++ [b]).foldl
            (fun x h => (s.lightUpdateStep input (s.getObj h) x).getD x) u⟩
        | Option.none =>
          ⟨false, (l.filter (fun h => !(s.getObj h).flags.turnedOff)).foldl
            (fun x h => (s.lightUpdateStep input (s.getObj h) x).getD x) u⟩) := by
  have consEq : ∀ (u : Bool) (h : Handle) (t : List Handle),
      s.lightTestLoop input u (h :: t) =
        if (s.getObj h).flags.turnedOff then s.lightTestLoop input u t
        else match s.lightUpdateStep input (s.getObj h) u with
          | Option.none => Option.none
          | some u2 =>
            if !(s.getObj h).flags.lightThru then some ⟨true, u2⟩
            else s.lightTestLoop input u2 t :=
    fun _ _ _ => rfl
  intro l
  induction l with
  | nil => intro u _; rfl
  | cons h t ih =>
    intro u hall
    have hrest : ∀ x ∈ t, ¬((s.getObj x).fid.kind = EntityKind.wall ∧
        (s.getObj x).flags.flat = false ∧ (s.getObj x).pid.proto_id = Option.none) :=
      fun x hx => hall x (List.mem_cons_of_mem h hx)
    cases hoff : (s.getObj h).flags.turnedOff with
    | true =>
      rw [consEq, if_pos hoff, ih u hrest]
      simp [List.find?_cons, List.takeWhile_cons, List.filter_cons, hoff]
    | false =>
      have hnp := hall h (List.mem_cons_self h t)
      have hsome := lightUpdateStep_isSome s input (s.getObj h) u hnp
      obtain ⟨u2, hu2⟩ := Option.isSome_iff_exists.mp hsome
      have hgetD : (s.lightUpdateStep input (s.getObj h) u).getD u = u2 := by
        rw [hu2]; rfl
      rw [consEq, if_neg (by rw [hoff]; exact Bool.false_ne_true), hu2]
      have hred : (match some u2 with
          | Option.none => (Option.none : Option LightTestResult)
          | some v =>
            if !(s.getObj h).flags.lightThru then some ⟨true, v⟩
            else s.lightTestLoop input v t) =
          if !(s.getObj h).flags.lightThru then some ⟨true, u2⟩
          else s.lightTestLoop input u2 t := rfl
      rw [hred]
      cases hlt : (s.getObj h).flags.lightThru with
      | true =>
        rw [if_neg (by decide), ih u2 hrest]
        simp [List.find?_cons, List.takeWhile_cons, List.filter_cons, hoff, hlt, hgetD]
      | false =>
        rw [if_pos (by decide)]
        simp [List.find?_cons, List.takeWhile_cons, List.filter_cons, hoff, hlt, hgetD]

/-- C8 (amended): provided no object on the tile is a non-flat wall without
a prototype reference (on such an object `light_test` panics in the
`proto_id().unwrap()`), `light_test` walks the tile's list skipping
turned-off objects, clearing the update accumulator per the
direction-dependent wall geometry (and for non-wall opaque objects in
directions E..SW), and returns immediately at the first non-turned-off
object without the light-through flag with `block := true` and the update
accumulated so far; when no object blocks it returns `block := false` with
the update accumulated over the whole list — which is `true` unless a
non-blocking non-flat wall's geometry cleared it. -/
theorem light_test_characterization (s : Objects) (input : LightTest)
    (hdef : ∀ h ∈ s.atPos input.point, ¬((s.getObj h).fid.kind = EntityKind.wall ∧
      (s.getObj h).flags.flat = false ∧ (s.getObj h).pid.proto_id = Option.none)) :
    s.light_test input =
      some (match (s.atPos input.point).find? (fun h => !(s.getObj h).flags.turnedOff &&
          !(s.getObj h).flags.lightThru) with
      | some b =>
        ⟨true, (((s.atPos input.point).takeWhile (fun h => (s.getObj h).flags.turnedOff ||
            (s.getObj h).flags.lightThru)).filter
              (fun h => !(s.getObj h).flags.turnedOff) ++ [b]).foldl
          (fun x h => (s.lightUpdateStep input (s.getObj h) x).getD x) true⟩
      | Option.none =>
        ⟨false, ((s.atPos input.point).filter
            (fun h => !(s.getObj h).flags.turnedOff)).foldl
          (fun x h => (s.lightUpdateStep input (s.getObj h) x).getD x) true⟩) := by
  unfold Objects.light_test
  exact lightTestLoop_eq s input (s.atPos input.point) true hdef

/-- C8 witness: the one-wall tile satisfies the no-panic precondition (the
wall carries prototype 42) and the characterization evaluates to
`some {block := false, update := false}` there. -/
theorem light_test_characterization_witness :
    (∀ h ∈ demoLightState.atPos demoLightInput.point,
      ¬((demoLightState.getObj h).fid.kind = EntityKind.wall ∧
        (demoLightState.getObj h).flags.flat = false ∧
        (demoLightState.getObj h).pid.proto_id = Option.none)) ∧
    demoLightState.light_test demoLightInput = some ⟨false, false⟩ := by
  refine ⟨by decide, ?_⟩
  rw [light_test_characterization demoLightState demoLightInput (by decide)]
  decide

/-- C8 counterexample: a real, non-panicking run — the light-through wall
carries prototype 42 with all wall-classification flags clear, so no object
blocks, yet `light_test` returns `update = false` — the claim's "if no
object blocks, the result is block = false and update = true" fails. -/
theorem light_test_spec_counterexample :
    demoLightState.light_test demoLightInput = some ⟨false, false⟩ := by
  decide

/-- C7: `can_talk` fails with `Unreachable` on differing elevations; beyond
hex distance 12 it fails with `TooFar` no matter what the pathfinder would
say (the pathfinder is not consulted); within distance 12 it succeeds
exactly when the pathfinder, driven by the sight-blocking passability
callback, finds a path, and fails with `Unreachable` otherwise. -/
theorem can_talk_characterization (s : Objects) (obj1 obj2 : Handle) (o1 o2 : Object)
    (p1 p2 : EPoint) (h1 : s.objects obj1 = some o1) (h2 : s.objects obj2 = some o2)
    (hp1 : o1.pos = some p1) (hp2 : o2.pos = some p2) :
    (p1.elevation ≠ p2.elevation →
      s.can_talk obj1 obj2 = some (.error .unreachable)) ∧
    (p1.elevation = p2.elevation → 12 < s.hexDist p1.point p2.point →
      s.can_talk obj1 obj2 = some (.error .tooFar) ∧
      ∀ f, ({ s with find := f } : Objects).can_talk obj1 obj2 =
        some (.error .tooFar)) ∧
    (p1.elevation = p2.elevation → s.hexDist p1.point p2.point ≤ 12 →
      (s.can_talk obj1 obj2 = some (.ok ()) ↔
        (s.find p1.point p2.point true (fun p =>
          if s.is_sight_blocked_at obj1 ⟨p1.elevation, p⟩ then .blocked
          else .passable 0)).isSome = true) ∧
      (s.can_talk obj1 obj2 = some (.error .unreachable) ↔
        (s.find p1.point p2.point true (fun p =>
          if s.is_sight_blocked_at obj1 ⟨p1.elevation, p⟩ then .blocked
          else .passable 0)).isSome = false)) := by
  have main : ∀ (s2 : Objects), s2.objects obj1 = some o1 → s2.objects obj2 = some o2 →
      s2.can_talk obj1 obj2 = some (
        if p1.elevation ≠ p2.elevation then .error .unreachable
        else if 12 < s2.hexDist p1.point p2.point then .error .tooFar
        else if (s2.find p1.point p2.point true (fun p =>
            if s2.is_sight_blocked_at obj1 ⟨p1.elevation, p⟩ then .blocked
            else .passable 0)).isSome then .ok () else .error .unreachable) := by
    intro s2 h1a h2a
    have g1 : s2.getObj obj1 = o1 := by unfold Objects.getObj; rw [h1a]; rfl
    have g2 : s2.getObj obj2 = o2 := by unfold Objects.getObj; rw [h2a]; rfl
    unfold Objects.can_talk
    rw [g1, g2, hp1, hp2]
  refine ⟨?_, ?_, ?_⟩
  · intro hne
    rw [main s h1 h2, if_pos hne]
  · intro he hd
    constructor
    · rw [main s h1 h2, if_neg (fun hx => hx he), if_pos hd]
    · intro f
      rw [main { s with find := f } h1 h2, if_neg (fun hx => hx he)]
      exact congrArg some (if_pos hd)
  · intro he hd
    have hnd : ¬ (12 < s.hexDist p1.point p2.point) := Nat.not_lt.mpr hd
    rw [main s h1 h2, if_neg (fun hx => hx he), if_neg hnd]
    cases hf : (s.find p1.point p2.point true (fun p =>
        if s.is_sight_blocked_at obj1 ⟨p1.elevation, p⟩ then .blocked
        else .passable 0)).isSome with
    | true => rw [if_pos rfl]; simp
    | false => rw [if_neg (by decide)]; simp

/-- C7 witness: at distance 13 `can_talk` is `TooFar`; at distance 10 with
a clear line it succeeds. -/
theorem can_talk_characterization_witness :
    demoTalkFarState.can_talk 0 1 = some (.error .tooFar) ∧
    demoTalkNearState.can_talk 0 1 = some (.ok ()) := by
  constructor
  · exact ((can_talk_characterization demoTalkFarState 0 1 demoTalkA demoTalkB
      ⟨0, ⟨0, 0⟩⟩ ⟨0, ⟨3, 3⟩⟩ rfl rfl rfl rfl).2.1 rfl (by decide)).1
  · exact ((can_talk_characterization demoTalkNearState 0 1 demoTalkA demoTalkB
      ⟨0, ⟨0, 0⟩⟩ ⟨0, ⟨3, 3⟩⟩ rfl rfl rfl rfl).2.2 rfl (by decide)).1.mpr rfl

theorem tileInsertList_perm (s : Objects) (obj : Object) (h : Handle) (l : List Handle) :
    (tileInsertList s obj h l).Perm (h :: l) := by
  induction l with
  | nil => exact List.Perm.refl _
  | cons h2 t ih =>
    unfold tileInsertList
    split
    · exact List.Perm.refl _
    · exact (ih.cons h2).trans (List.Perm.swap h h2 t)

/-- The removed handle's stored object, with its position taken. -/
theorem Objects.remove_objects_self {s : Objects} {h : Handle} {o : Object}
    (ho : s.objects h = some o) :
    (s.remove_from_tile_grid h).1.objects h = some { o with pos := Option.none } := by
  cases hp : o.pos with
  | some p =>
    rw [Objects.remove_eq_of_pos_some ho hp]
    show ((s.updObj h _).objects h) = _
    rw [Objects.updObj_objects_self, ho]
    rfl
  | none =>
    rw [Objects.remove_eq_of_pos_none ho hp]
    show ((s.updObj h _).objects h) = _
    rw [Objects.updObj_objects_self, ho]
    rfl

/-- Other entities are untouched by removal. -/
theorem Objects.remove_objects_ne {s : Objects} {h : Handle} {o : Object}
    (ho : s.objects h = some o) {k : Handle} (hk : k ≠ h) :
    (s.remove_from_tile_grid h).1.objects k = s.objects k := by
  cases hp : o.pos with
  | some p =>
    rw [Objects.remove_eq_of_pos_some ho hp]
    show ((s.updObj h _).objects k) = _
    rw [Objects.updObj_objects_ne _ _ _ hk]
  | none =>
    rw [Objects.remove_eq_of_pos_none ho hp]
    show ((s.updObj h _).objects k) = _
    rw [Objects.updObj_objects_ne _ _ _ hk]

/-- C10 (amended): `set_pos` and `insert` of an object carrying a position
reset the stored `screen_shift` to (0,0), and `reset_screen_shift` does so
for an object that has a position — but leaves a detached object entirely
unchanged; `set_screen_shift`/`add_screen_shift` change only the
`screen_shift` field (position and every other field survive), touch no
other object, leave every other tile list and the detached list alone, and
only permute (re-sort) the object's own tile list. -/
theorem screen_shift_frame_effects (s : Objects) (h : Handle) (o : Object)
    (ho : s.objects h = some o) :
    (∀ p, (s.set_pos h p).objects h =
        some { o with pos := some p, screenShift := ⟨0, 0⟩ } ∧
      ∀ k, k ≠ h → (s.set_pos h p).objects k = s.objects k) ∧
    (∀ (obj : Object) (p : EPoint), obj.pos = some p →
      (s.insertObj obj).1.objects (s.insertObj obj).2 =
        some { obj with screenShift := ⟨0, 0⟩ }) ∧
    (∀ p, o.pos = some p →
      (s.reset_screen_shift h).objects h = some { o with screenShift := ⟨0, 0⟩ }) ∧
    (o.pos = Option.none → (s.reset_screen_shift h).objects h = some o) ∧
    (∀ v, (s.set_screen_shift h v).objects h = some { o with screenShift := v } ∧
      (∀ k, k ≠ h → (s.set_screen_shift h v).objects k = s.objects k) ∧
      (∀ q, o.pos = some q →
        (∀ r, r ≠ q → (s.set_screen_shift h v).byPos r = s.byPos r) ∧
        (s.set_screen_shift h v).detached = s.detached ∧
        (WF s → ((s.set_screen_shift h v).byPos q).Perm (s.byPos q)))) ∧
    (∀ v, (s.add_screen_shift h v).1.objects h =
        some { o with screenShift := o.screenShift + v } ∧
      (s.add_screen_shift h v).2 = o.screenShift + v ∧
      (∀ k, k ≠ h → (s.add_screen_shift h v).1.objects k = s.objects k) ∧
      (∀ q, o.pos = some q →
        (∀ r, r ≠ q → (s.add_screen_shift h v).1.byPos r = s.byPos r) ∧
        (s.add_screen_shift h v).1.detached = s.detached ∧
        (WF s → ((s.add_screen_shift h v).1.byPos q).Perm (s.byPos q)))) := by
  have hrs : (s.remove_from_tile_grid h).1.objects h =
      some { o with pos := Option.none } := Objects.remove_objects_self ho
  have hr2 : (s.remove_from_tile_grid h).2 = o.pos := by
    unfold Objects.remove_from_tile_grid
    rw [show s.getObj h = o by unfold Objects.getObj; rw [ho]; rfl]
    cases o.pos <;> rfl
  refine ⟨?_, ?_, ?_, ?_, ?_, ?_⟩
  · intro p
    constructor
    · unfold Objects.set_pos
      rw [Objects.insert_into_objects_some, hrs]
      rfl
    · intro k hk
      unfold Objects.set_pos
      rw [Objects.insert_into_eq_some]
      show ((s.remove_from_tile_grid h).1.updObj h _).objects k = _
      rw [Objects.updObj_objects_ne _ _ _ hk]
      exact Objects.remove_objects_ne ho hk
  · intro obj p hp
    rw [Objects.insertObj_eq]
    show ((s.alloc obj).insert_into_tile_grid s.nextHandle obj.pos true).objects
      s.nextHandle = _
    rw [hp, Objects.insert_into_objects_some, Objects.alloc_objects, if_pos rfl, ← hp]
    rfl
  · intro p hp
    simp only [Objects.reset_screen_shift]
    rw [hr2, hp, Objects.insert_into_objects_some, hrs, ← hp]
    rfl
  · intro hp
    simp only [Objects.reset_screen_shift]
    rw [hr2, hp, Objects.insert_into_eq_none]
    show (s.remove_from_tile_grid h).1.objects h = some o
    rw [hrs, ← hp]
  · intro v
    have hobj2 : ((s.remove_from_tile_grid h).1.updObj h
        (fun oo => { oo with screenShift := v })).objects h =
        some { o with pos := Option.none, screenShift := v } := by
      rw [Objects.updObj_objects_self, hrs]
      rfl
    refine ⟨?_, ?_, ?_⟩
    · simp only [Objects.set_screen_shift]
      rw [hr2]
      cases hp : o.pos with
      | some q =>
        rw [Objects.insert_into_objects_some, hobj2, ← hp]
        rfl
      | none =>
        rw [Objects.insert_into_eq_none]
        show ((s.remove_from_tile_grid h).1.updObj h _).objects h = _
        rw [hobj2, ← hp]
    · intro k hk
      simp only [Objects.set_screen_shift]
      rw [hr2]
      cases hp : o.pos with
      | some q =>
        rw [Objects.insert_into_eq_some]
        show (((s.remove_from_tile_grid h).1.updObj h _).updObj h _).objects k = _
        rw [Objects.updObj_objects_ne _ _ _ hk, Objects.updObj_objects_ne _ _ _ hk]
        exact Objects.remove_objects_ne ho hk
      | none =>
        rw [Objects.insert_into_eq_none]
        show (((s.remove_from_tile_grid h).1.updObj h _)).objects k = _
        rw [Objects.updObj_objects_ne _ _ _ hk]
        exact Objects.remove_objects_ne ho hk
    · intro q hq
      simp only [Objects.set_screen_shift]
      rw [hr2, hq, Objects.insert_into_eq_some, Objects.remove_eq_of_pos_some ho hq]
      refine ⟨?_, rfl, ?_⟩
      · intro r hr
        show (if r = q then _ else if r = q then _ else s.byPos r) = s.byPos r
        rw [if_neg hr, if_neg hr]
      · intro hW
        show (if q = q then tileInsertList _ _ _
            (if q = q then (s.byPos q).filter (fun hh => hh ≠ h) else _) else _).Perm
          (s.byPos q)
        rw [if_pos rfl, if_pos rfl]
        refine (tileInsertList_perm _ _ _ _).trans ?_
        have hmem : h ∈ s.byPos q := (hW.mem_pos h q).mpr ⟨o, ho, hq⟩
        have hfun : (fun hh : Handle => decide (hh ≠ h)) = (fun hh : Handle => hh != h) := by
          funext x
          by_cases hx : x = h <;> simp [hx]
        have herase : (s.byPos q).filter (fun hh => hh ≠ h) = (s.byPos q).erase h := by
          show (s.byPos q).filter (fun hh => decide (hh ≠ h)) = (s.byPos q).erase h
          rw [hfun]
          exact ((hW.nodup_pos q).erase_eq_filter h).symm
        rw [herase]
        exact (List.perm_cons_erase hmem).symm
  · intro v
    have hobj2 : ((s.remove_from_tile_grid h).1.updObj h
        (fun oo => { oo with screenShift := oo.screenShift + v })).objects h =
        some { o with pos := Option.none, screenShift := o.screenShift + v } := by
      rw [Objects.updObj_objects_self, hrs]
      rfl
    refine ⟨?_, ?_, ?_, ?_⟩
    · simp only [Objects.add_screen_shift]
      rw [hr2]
      cases hp : o.pos with
      | some q =>
        rw [Objects.insert_into_objects_some, hobj2, ← hp]
        rfl
      | none =>
        rw [Objects.insert_into_eq_none]
        show ((s.remove_from_tile_grid h).1.updObj h _).objects h = _
        rw [hobj2, ← hp]
    · simp only [Objects.add_screen_shift]
      show (((s.remove_from_tile_grid h).1.updObj h _).getObj h).screenShift = _
      unfold Objects.getObj
      rw [hobj2]
      rfl
    · intro k hk
      simp only [Objects.add_screen_shift]
      rw [hr2]
      cases hp : o.pos with
      | some q =>
        rw [Objects.insert_into_eq_some]
        show (((s.remove_from_tile_grid h).1.updObj h _).updObj h _).objects k = _
        rw [Objects.updObj_objects_ne _ _ _ hk, Objects.updObj_objects_ne _ _ _ hk]
        exact Objects.remove_objects_ne ho hk
      | none =>
        rw [Objects.insert_into_eq_none]
        show (((s.remove_from_tile_grid h).1.updObj h _)).objects k = _
        rw [Objects.updObj_objects_ne _ _ _ hk]
        exact Objects.remove_objects_ne ho hk
    · intro q hq
      simp only [Objects.add_screen_shift]
      rw [hr2, hq, Objects.insert_into_eq_some, Objects.remove_eq_of_pos_some ho hq]
      refine ⟨?_, rfl, ?_⟩
      · intro r hr
        show (if r = q then _ else if r = q then _ else s.byPos r) = s.byPos r
        rw [if_neg hr, if_neg hr]
      · intro hW
        show (if q = q then tileInsertList _ _ _
            (if q = q then (s.byPos q).filter (fun hh => hh ≠ h) else _) else _).Perm
          (s.byPos q)
        rw [if_pos rfl, if_pos rfl]
        refine (tileInsertList_perm _ _ _ _).trans ?_
        have hmem : h ∈ s.byPos q := (hW.mem_pos h q).mpr ⟨o, ho, hq⟩
        have hfun : (fun hh : Handle => decide (hh ≠ h)) = (fun hh : Handle => hh != h) := by
          funext x
          by_cases hx : x = h <;> simp [hx]
        have herase : (s.byPos q).filter (fun hh => hh ≠ h) = (s.byPos q).erase h := by
          show (s.byPos q).filter (fun hh => decide (hh ≠ h)) = (s.byPos q).erase h
          rw [hfun]
          exact ((hW.nodup_pos q).erase_eq_filter h).symm
        rw [herase]
        exact (List.perm_cons_erase hmem).symm

/-- C10 counterexample: `reset_screen_shift` on a detached object does not
reset its screen shift to (0, 0) — the object comes back unchanged with
shift (1, 2). -/
theorem reset_screen_shift_detached_counterexample :
    (demoDetachedState.reset_screen_shift 0).objects 0 = some demoDetached ∧
    demoDetached.screenShift = ⟨1, 2⟩ ∧ demoDetached.screenShift ≠ ⟨0, 0⟩ := by
  refine ⟨by decide, rfl, by decide⟩

/-- C10 witness: the frame-effect theorem applied to the one-critter state;
`set_screen_shift` rewrites exactly the shift field. -/
theorem screen_shift_frame_effects_witness :
    demoBlockState.objects 0 = some demoCritter ∧
    (demoBlockState.set_screen_shift 0 ⟨3, 4⟩).objects 0 =
      some { demoCritter with screenShift := ⟨3, 4⟩ } :=
  ⟨rfl, ((screen_shift_frame_effects demoBlockState 0 demoCritter rfl).2.2.2.2.1 ⟨3, 4⟩).1⟩

theorem upTo_cons (tp p : Point) (rest : List Point) :
    upTo tp (p :: rest) = if p = tp then [p] else p :: upTo tp rest := by
  simp only [upTo]

theorem shotWalk_cons (s : Objects) (shooter target : Handle) (elev : Nat)
    (tp : Point) (last : Option Handle) (p : Point) (rest : List Point) :
    s.shotWalk shooter target elev tp last (p :: rest) =
      (if shotNew s shooter target last (s.shot_blocker_at shooter ⟨elev, p⟩) then true
       else if p == tp then false
       else s.shotWalk shooter target elev tp
         (if s.shot_blocker_at shooter ⟨elev, p⟩ != last &&
             (s.shot_blocker_at shooter ⟨elev, p⟩).isSome then
            s.shot_blocker_at shooter ⟨elev, p⟩
          else last) rest) := rfl

theorem codeShotSeq_cons (s : Objects) (shooter target : Handle)
    (acc b : Option Handle) (rest : List (Option Handle)) :
    codeShotSeq s shooter target acc (b :: rest) =
      (if shotNew s shooter target acc b then true
       else codeShotSeq s shooter target
         (if b != acc && b.isSome then b else acc) rest) := rfl

theorem specShotSeq_cons (s : Objects) (shooter target : Handle)
    (prev b : Option Handle) (rest : List (Option Handle)) :
    specShotSeq s shooter target prev (b :: rest) =
      (if shotNew s shooter target prev b then true
       else specShotSeq s shooter target b rest) := rfl

/-- The source walk equals the abstract code walk over the blocker sequence
of the truncated ray. -/
theorem shotWalk_eq_codeSeq (s : Objects) (shooter target : Handle) (elev : Nat)
    (tp : Point) : ∀ (ps : List Point) (last : Option Handle),
    s.shotWalk shooter target elev tp last ps =
      codeShotSeq s shooter target last
        ((upTo tp ps).map (fun p => s.shot_blocker_at shooter ⟨elev, p⟩)) := by
  intro ps
  induction ps with
  | nil => intro last; rfl
  | cons p rest ih =>
    intro last
    rw [shotWalk_cons]
    by_cases hp : p = tp
    · rw [show upTo tp (p :: rest) = [p] from by rw [upTo_cons, if_pos hp]]
      rw [List.map_cons, List.map_nil, codeShotSeq_cons]
      have hb : (p == tp) = true := by simp [hp]
      rw [hb]
      cases hn : shotNew s shooter target last (s.shot_blocker_at shooter ⟨elev, p⟩) with
      | true => rw [if_pos rfl, if_pos rfl]
      | false =>
        rw [if_neg (show ¬(false = true) by decide), if_pos rfl,
          if_neg (show ¬(false = true) by decide)]
        rfl
    · rw [show upTo tp (p :: rest) = p :: upTo tp rest from by
        rw [upTo_cons, if_neg hp]]
      rw [List.map_cons, codeShotSeq_cons]
      have hb : (p == tp) = false := by simp [hp]
      rw [hb]
      cases hn : shotNew s shooter target last (s.shot_blocker_at shooter ⟨elev, p⟩) with
      | true => rw [if_pos rfl, if_pos rfl]
      | false =>
        rw [if_neg (show ¬(false = true) by decide),
          if_neg (show ¬(false = true) by decide),
          if_neg (show ¬(false = true) by decide)]
        exact ih _

theorem shotNew_iff (s : Objects) (shooter target : Handle) (acc b : Option Handle) :
    shotNew s shooter target acc b = true ↔
      ∃ x, b = some x ∧ b ≠ acc ∧ shotHitP s shooter target x := by
  unfold shotNew shotHitP
  cases b with
  | none => simp
  | some x =>
    simp [Bool.and_eq_true, bne_iff_ne, and_assoc]

theorem shotStep_eq (acc b : Option Handle) :
    (if b != acc && b.isSome then b else acc) =
      (match b with | some x => some x | Option.none => acc) := by
  cases b with
  | none => simp
  | some x =>
    by_cases hb : some x = acc
    · rw [if_neg (by simp [hb])]
      exact hb.symm
    · rw [if_pos (by simp [hb])]

theorem lastSomeFrom_cons (acc b : Option Handle) (l : List (Option Handle)) :
    lastSomeFrom acc (b :: l) =
      lastSomeFrom (match b with | some x => some x | Option.none => acc) l := rfl

theorem prevFrom_cons (prev b : Option Handle) (l : List (Option Handle)) :
    prevFrom prev (b :: l) = prevFrom b l := by
  cases l with
  | nil => rfl
  | cons c t =>
    cases hgl : (c :: t).getLast? with
    | none =>
      exfalso
      rcases List.getLast?_eq_none_iff.mp hgl with h
      cases h
    | some d =>
      unfold prevFrom
      rw [List.getLast?_cons_cons, hgl]
      rfl

/-- The code walk hits iff the blocker sequence splits at a hit value that
differs from the last `some` before it. -/
theorem codeShotSeq_iff (s : Objects) (shooter target : Handle) :
    ∀ (bs : List (Option Handle)) (acc : Option Handle),
    codeShotSeq s shooter target acc bs = true ↔
      ∃ pre x post, bs = pre ++ some x :: post ∧ shotHitP s shooter target x ∧
        lastSomeFrom acc pre ≠ some x := by
  intro bs
  induction bs with
  | nil =>
    intro acc
    constructor
    · intro hx
      cases hx
    · rintro ⟨pre, x, post, habs, _, _⟩
      exact absurd habs (by simp)
  | cons b rest ih =>
    intro acc
    rw [codeShotSeq_cons]
    by_cases hn : shotNew s shooter target acc b = true
    · rw [if_pos hn]
      constructor
      · intro _
        rcases (shotNew_iff s shooter target acc b).mp hn with ⟨x, hbx, hne, hhit⟩
        refine ⟨[], x, rest, by rw [hbx]; rfl, hhit, ?_⟩
        show acc ≠ some x
        intro he
        exact hne (by rw [hbx, he])
      · intro _
        rfl
    · rw [if_neg hn, ih]
      constructor
      · rintro ⟨pre, x, post, hsplit, hhit, hlast⟩
        refine ⟨b :: pre, x, post, by rw [List.cons_append, hsplit], hhit, ?_⟩
        rw [lastSomeFrom_cons, ← shotStep_eq]
        exact hlast
      · rintro ⟨pre, x, post, hsplit, hhit, hlast⟩
        cases pre with
        | nil =>
          rw [List.nil_append] at hsplit
          injection hsplit with hb hr
          exfalso
          refine hn ((shotNew_iff s shooter target acc b).mpr ⟨x, hb, ?_, hhit⟩)
          rw [hb]
          exact fun he => hlast he.symm
        | cons b0 pre2 =>
          rw [List.cons_append] at hsplit
          injection hsplit with hb hr
          subst hb
          refine ⟨pre2, x, post, hr, hhit, ?_⟩
          rw [shotStep_eq]
          rw [lastSomeFrom_cons] at hlast
          exact hlast

/-- The claim's reading hits iff the blocker sequence splits at a hit value
that differs from the immediately preceding element. -/
theorem specShotSeq_iff (s : Objects) (shooter target : Handle) :
    ∀ (bs : List (Option Handle)) (prev : Option Handle),
    specShotSeq s shooter target prev bs = true ↔
      ∃ pre x post, bs = pre ++ some x :: post ∧ shotHitP s shooter target x ∧
        prevFrom prev pre ≠ some x := by
  intro bs
  induction bs with
  | nil =>
    intro prev
    constructor
    · intro hx
      cases hx
    · rintro ⟨pre, x, post, habs, _, _⟩
      exact absurd habs (by simp)
  | cons b rest ih =>
    intro prev
    rw [specShotSeq_cons]
    by_cases hn : shotNew s shooter target prev b = true
    · rw [if_pos hn]
      constructor
      · intro _
        rcases (shotNew_iff s shooter target prev b).mp hn with ⟨x, hbx, hne, hhit⟩
        refine ⟨[], x, rest, by rw [hbx]; rfl, hhit, ?_⟩
        show prev ≠ some x
        intro he
        exact hne (by rw [hbx, he])
      · intro _
        rfl
    · rw [if_neg hn, ih]
      constructor
      · rintro ⟨pre, x, post, hsplit, hhit, hlast⟩
        refine ⟨b :: pre, x, post, by rw [List.cons_append, hsplit], hhit, ?_⟩
        rw [prevFrom_cons]
        exact hlast
      · rintro ⟨pre, x, post, hsplit, hhit, hlast⟩
        cases pre with
        | nil =>
          rw [List.nil_append] at hsplit
          injection hsplit with hb hr
          exfalso
          refine hn ((shotNew_iff s shooter target prev b).mpr ⟨x, hb, ?_, hhit⟩)
          rw [hb]
          exact fun he => hlast he.symm
        | cons b0 pre2 =>
          rw [List.cons_append] at hsplit
          injection hsplit with hb hr
          subst hb
          refine ⟨pre2, x, post, hr, hhit, ?_⟩
          rw [prevFrom_cons] at hlast
          exact hlast

theorem lastSomeFrom_mem : ∀ (l : List (Option Handle)) (acc : Option Handle)
    (c : Handle), lastSomeFrom acc l = some c → some c ∈ l ∨ acc = some c := by
  intro l
  induction l with
  | nil =>
    intro acc c h
    exact Or.inr h
  | cons b t ih =>
    intro acc c h
    rw [lastSomeFrom_cons] at h
    rcases ih _ c h with hin | hstep
    · exact Or.inl (List.mem_cons_of_mem _ hin)
    · cases b with
      | none => exact Or.inr hstep
      | some x => exact Or.inl (by rw [← hstep]; exact List.mem_cons_self _ _)

theorem lastSomeFrom_append_some (acc : Option Handle) (l : List (Option Handle))
    (c : Handle) : lastSomeFrom acc (l ++ [some c]) = some c := by
  unfold lastSomeFrom
  rw [List.foldl_append]
  rfl

theorem getLast?_split {l : List (Option Handle)} {b : Option Handle}
    (h : l.getLast? = some b) : ∃ l2, l = l2 ++ [b] := by
  induction l with
  | nil => cases h
  | cons a t ih =>
    cases t with
    | nil =>
      have ha : a = b := by
        have hsing : ([a] : List (Option Handle)).getLast? = some a := rfl
        rw [hsing] at h
        injection h
      exact ⟨[], by rw [ha]; rfl⟩
    | cons c t2 =>
      rw [List.getLast?_cons_cons] at h
      rcases ih h with ⟨l2, hl2⟩
      exact ⟨a :: l2, by rw [hl2]; rfl⟩

theorem mem_first_split {a : Option Handle} : ∀ {l : List (Option Handle)},
    a ∈ l → ∃ l1 l2, l = l1 ++ a :: l2 ∧ a ∉ l1 := by
  intro l
  induction l with
  | nil => intro h; cases h
  | cons b t ih =>
    intro h
    by_cases hb : a = b
    · subst hb
      exact ⟨[], t, rfl, by simp⟩
    · rcases List.mem_cons.mp h with he | ht
      · exact absurd he hb
      · rcases ih ht with ⟨l1, l2, hsplit, hnot⟩
        refine ⟨b :: l1, l2, by rw [hsplit]; rfl, ?_⟩
        intro hmem
        rcases List.mem_cons.mp hmem with he | hl1
        · exact hb he
        · exact hnot hl1

/-- The two readings agree from an empty memory: "differs from the last
`some` blocker" and "differs from the previous step's blocker" hit the same
sequences. -/
theorem codeShotSeq_eq_specShotSeq (s : Objects) (shooter target : Handle)
    (bs : List (Option Handle)) :
    codeShotSeq s shooter target Option.none bs =
      specShotSeq s shooter target Option.none bs := by
  have hiff : codeShotSeq s shooter target Option.none bs = true ↔
      specShotSeq s shooter target Option.none bs = true := by
    rw [codeShotSeq_iff, specShotSeq_iff]
    constructor
    · rintro ⟨pre, x, post, hsplit, hhit, hlast⟩
      refine ⟨pre, x, post, hsplit, hhit, ?_⟩
      cases hgl : pre.getLast? with
      | none =>
        unfold prevFrom
        rw [hgl]
        intro hx
        cases hx
      | some b =>
        cases b with
        | none =>
          unfold prevFrom
          rw [hgl]
          intro hx
          cases hx
        | some c =>
          unfold prevFrom
          rw [hgl]
          rcases getLast?_split hgl with ⟨l2, rfl⟩
          rw [lastSomeFrom_append_some] at hlast
          exact hlast
    · rintro ⟨pre, x, post, hsplit, hhit, hprev⟩
      by_cases hmem : some x ∈ pre
      · rcases mem_first_split hmem with ⟨l1, l2, hpre, hnot⟩
        refine ⟨l1, x, l2 ++ some x :: post, ?_, hhit, ?_⟩
        · rw [hsplit, hpre, List.append_assoc, List.cons_append]
        · intro heq
          rcases lastSomeFrom_mem l1 Option.none x heq with hin | hacc
          · exact hnot hin
          · cases hacc
      · refine ⟨pre, x, post, hsplit, hhit, ?_⟩
        intro heq
        rcases lastSomeFrom_mem pre Option.none x heq with hin | hacc
        · exact hmem hin
        · cases hacc
  cases hc : codeShotSeq s shooter target Option.none bs <;>
    cases hs : specShotSeq s shooter target Option.none bs <;> simp_all

/-- C6: under the same-elevation precondition (the source asserts it and
unwraps both positions — modelled as `none`), `is_shot_blocked` walks the
hex ray truncated at the target tile and returns true exactly when some
step's shot blocker differs from the previous step's blocker, is neither
shooter nor target, and is not a critter (`specShotSeq`, the claim's
reading); with one intervening wall on a straight 5-tile ray the shot is
blocked, and with the wall removed it is not. -/
theorem is_shot_blocked_characterization (s : Objects) (shooter target : Handle)
    (o1 o2 : Object) (p1 p2 : EPoint)
    (h1 : s.objects shooter = some o1) (h2 : s.objects target = some o2)
    (hp1 : o1.pos = some p1) (hp2 : o2.pos = some p2) :
    (p1.elevation = p2.elevation →
      s.is_shot_blocked shooter target =
        some (specShotSeq s shooter target Option.none
          ((upTo p2.point (s.ray p1.point p2.point)).map
            (fun p => s.shot_blocker_at shooter ⟨p1.elevation, p⟩)))) ∧
    (p1.elevation ≠ p2.elevation → s.is_shot_blocked shooter target = Option.none) ∧
    demoRayWallState.is_shot_blocked 0 1 = some true ∧
    demoRayClearState.is_shot_blocked 0 1 = some false := by
  have g1 : s.getObj shooter = o1 := by unfold Objects.getObj; rw [h1]; rfl
  have g2 : s.getObj target = o2 := by unfold Objects.getObj; rw [h2]; rfl
  refine ⟨?_, ?_, by decide, by decide⟩
  · intro he
    unfold Objects.is_shot_blocked
    rw [g1, g2, hp1, hp2]
    show (if p1.elevation = p2.elevation then _ else _) = _
    rw [if_pos he]
    refine congrArg some ?_
    rw [shotWalk_eq_codeSeq]
    exact codeShotSeq_eq_specShotSeq s shooter target _
  · intro hne
    unfold Objects.is_shot_blocked
    rw [g1, g2, hp1, hp2]
    show (if p1.elevation = p2.elevation then _ else _) = _
    rw [if_neg hne]

/-- C6 witness: the characterization applied to the concrete wall scenario
(sequence semantics and the direct run agree there). -/
theorem is_shot_blocked_characterization_witness :
    demoRayWallState.is_shot_blocked 0 1 =
      some (specShotSeq demoRayWallState 0 1 Option.none
        ((upTo ((⟨4, 0⟩ : Point)) (demoRayWallState.ray ⟨0, 0⟩ ⟨4, 0⟩)).map
          (fun p => demoRayWallState.shot_blocker_at 0 ⟨0, p⟩))) :=
  (is_shot_blocked_characterization demoRayWallState 0 1 demoRayShooter demoRayTarget
    ⟨0, ⟨0, 0⟩⟩ ⟨0, ⟨4, 0⟩⟩ rfl rfl rfl rfl).1 rfl

end Vault13
